import Mathlib

/-!
Shallow embedding of the TX CREWS Majors → MajorTrans harvester (`main.py`)
and proofs of the behavioural properties stated in its specification.

Python values reachable by the script's field accesses are modelled by `Val`
(JSON null, booleans, integers and strings); a JSON object is an association
list `Dict`; fallible Python code (exceptions) is modelled with
`Except String`.  Machine-level concerns (floats, the file system, the HTTP
session) are abstracted exactly at the boundaries the source uses: the network
is a function from a program id to a fetch result, the disk cache is a map
from a program id to an optional file whose optional payload records whether
the cached bytes parse as JSON.
-/

/-- Model of the Python/JSON values the script manipulates. -/
inductive Val where
  | vnull : Val
  | vbool : Bool → Val
  | vint : Int → Val
  | vstr : String → Val
  deriving DecidableEq, Repr

/-- Python truthiness (`if v:`) for the modelled values. -/
def Val.truthy : Val → Bool
  | .vnull => false
  | .vbool b => b
  | .vint n => n != 0
  | .vstr s => s != ""

/-- Numeric view: Python treats `bool` as a subtype of `int`. -/
def Val.asNum? : Val → Option Int
  | .vint n => some n
  | .vbool b => some (if b then 1 else 0)
  | _ => none

/-- String view of a value. -/
def Val.asStr? : Val → Option String
  | .vstr s => some s
  | _ => none

/-- Python `==` between a modelled value and a Python `int`. -/
def pyEqInt (v : Val) (n : Int) : Bool :=
  match v.asNum? with
  | some m => m == n
  | none => false

/-- Python `==` between two modelled values (numbers compare across
`bool`/`int`, strings compare as strings, `None` only equals `None`). -/
def pyEqVal (a b : Val) : Bool :=
  match a.asNum?, b.asNum? with
  | some m, some n => m == n
  | some _, none => false
  | none, some _ => false
  | none, none =>
    match a.asStr?, b.asStr? with
    | some s, some t => s == t
    | some _, none => false
    | none, some _ => false
    | none, none => true

/-- A JSON object as the script sees it: an association list of fields. -/
abbrev Dict := List (String × Val)

/-- Python `d.get(k)`: the value stored at `k`, or `None` when absent. -/
def pget (r : Dict) (k : String) : Val :=
  match r.find? (fun p => p.1 == k) with
  | some p => p.2
  | none => .vnull

/-- Parse of a stripped token by Python `int(...)`: an optional sign followed
by a nonempty run of decimal digits. -/
def pyToInt? (s : String) : Option Int :=
  let core : List Char → Option Int := fun ds =>
    if ds ≠ [] ∧ ds.all Char.isDigit then
      some (Int.ofNat (ds.foldl (fun a c => a * 10 + (c.toNat - 48)) 0))
    else none
  match s.toList with
  | '-' :: rest => (core rest).map (fun n => -n)
  | '+' :: rest => core rest
  | cs => core cs

/-- Python `str.replace(",", " ")`. -/
def replaceCommas (s : String) : String :=
  String.mk (s.data.map (fun c => if c = ',' then ' ' else c))

/-- Python `str.strip()`: drop leading and trailing whitespace. -/
def pyStrip (s : String) : String :=
  String.mk
    (((s.data.dropWhile Char.isWhitespace).reverse.dropWhile
      Char.isWhitespace).reverse)

/-- Maximal runs of non-whitespace characters, accumulating the current run
reversed. -/
def wsTokensAux (cur : List Char) : List Char → List (List Char)
  | [] => if cur = [] then [] else [cur.reverse]
  | c :: cs =>
    if c.isWhitespace then
      if cur = [] then wsTokensAux [] cs
      else cur.reverse :: wsTokensAux [] cs
    else wsTokensAux (c :: cur) cs

/-- Python `str.split()` with no argument: split on whitespace runs,
discarding empty pieces. -/
def pySplitWhitespace (s : String) : List String :=
  (wsTokensAux [] s.data).map String.mk

/-- Python `int(v)` on a modelled value: identity on ints, 0/1 on bools,
string parse on strings, and an exception otherwise. -/
def pyInt : Val → Except String Int
  | .vint n => .ok n
  | .vbool b => .ok (if b then 1 else 0)
  | .vstr s =>
    match pyToInt? (pyStrip s) with
    | some n => .ok n
    | none => .error ("invalid literal for int with base 10: " ++ s)
  | .vnull => .error "int argument must be a string or a number, not NoneType"

/-- Stable insertion of an element into a list ordered by `le`. -/
def insLe {α : Type} (le : α → α → Bool) (v : α) : List α → List α
  | [] => [v]
  | w :: ws => if le v w then v :: w :: ws else w :: insLe le v ws

/-- Stable insertion sort by a boolean comparison, modelling Python `sorted`
and `list.sort` on inputs where the comparison is total. -/
def sortLe {α : Type} (le : α → α → Bool) : List α → List α
  | [] => []
  | v :: vs => insLe le v (sortLe le vs)

/-- Comparison used by Python `sorted` on a list of numbers. -/
def vleNum (a b : Val) : Bool := decide (a.asNum?.getD 0 ≤ b.asNum?.getD 0)

/-- Comparison used by Python `sorted` on a list of strings. -/
def vleStr (a b : Val) : Bool := decide (a.asStr?.getD "" ≤ b.asStr?.getD "")

/-- Python `sorted` on modelled values: lists of length at most one come back
unchanged, homogeneous lists (all numbers, or all strings) are sorted, and a
mixed list raises `TypeError`. -/
def pySorted (l : List Val) : Except String (List Val) :=
  match l with
  | [] => .ok []
  | [v] => .ok [v]
  | _ =>
    if l.all (fun v => v.asNum?.isSome) then .ok (sortLe vleNum l)
    else if l.all (fun v => v.asStr?.isSome) then .ok (sortLe vleStr l)
    else .error "TypeError: unorderable types in sorted"

/-- Deduplication under Python set semantics: insertion order is scanned left
to right and an element is kept only when no kept element compares equal. -/
def dedupPyAux (acc : List Val) : List Val → List Val
  | [] => acc
  | v :: vs =>
    if acc.any (fun w => pyEqVal w v) then dedupPyAux acc vs
    else dedupPyAux (acc ++ [v]) vs

/-- Deduplicate a list of values under Python equality, keeping the first
occurrence of each equivalence class. -/
def dedupPy (l : List Val) : List Val := dedupPyAux [] l

/-- The `degreeLevelData` payload of a MajorTrans response; `none` covers both
a missing key and a JSON `null` (the source applies `.get(..., []) or []`). -/
structure DetailRecord where
  degreeLevelData : Option (List Dict)
  deriving DecidableEq, Repr

/-- Value of `majortrans.get("degreeLevelData", []) or []`. -/
def DetailRecord.dldAll (mt : DetailRecord) : List Dict :=
  mt.degreeLevelData.getD []

/-- Fixed API base of the scraper. -/
def API_BASE : String := "https://api.txcrews.org/api"

/-- `MAJOR_TRANS_URL_TPL.format(program_id=pid)`. -/
def major_trans_url (pid : Int) : String :=
  API_BASE ++ "/MajorTrans/" ++ toString pid

/-- `DASHBOARD_URL_TPL.format(program_id=pid)`. -/
def dashboard_url (pid : Int) : String :=
  "https://txcrews.org/major-dashboard/" ++ toString pid

/-- `DEFAULT_EXCLUDE_IDS` as written in the code. -/
def DEFAULT_EXCLUDE_IDS : Finset ℤ := {134, 142, 141}

/-- The fourteen metric keys copied verbatim into every output row. -/
def metric_keys : List String :=
  ["schoolProfileId", "degreeLevelId", "degreeLevelName", "numberOfGraduates",
   "tuitionFee", "degreeTimeFinish", "loanPercent", "loanAmount",
   "wagesYear1", "wagesYear3", "wagesYear5", "wagesYear8", "wagesYear10",
   "loanPercentWagesYear1"]

/-- The seven per-program fields present in every output row, in the order the
source inserts them. -/
def base_fields (pid : Int) (plong : Val) (year : Int) (inst : Val)
    (flag : Int) (api dash : String) : Dict :=
  [("programId", .vint pid), ("programLongName", plong), ("year", .vint year),
   ("instituteLegalName", inst), ("has_year_data", .vint flag),
   ("apiUrl", .vstr api), ("dashboardUrl", .vstr dash)]

/-- Output row for one target-year data point (`has_year_data = 1`, metric
fields copied from the point). -/
def data_row (pid : Int) (plong : Val) (year : Int) (api dash : String)
    (inst : Val) (r : Dict) : Dict :=
  base_fields pid plong year inst 1 api dash ++
    metric_keys.map (fun k => (k, pget r k))

/-- Placeholder row for an institute without target-year data
(`has_year_data = 0`, all metric fields null). -/
def placeholder_row (pid : Int) (plong : Val) (year : Int) (api dash : String)
    (inst : Val) : Dict :=
  base_fields pid plong year inst 0 api dash ++
    metric_keys.map (fun k => (k, Val.vnull))

/-- Exclusion predicate of one data point: the point carries a
`schoolProfileId` whose `int(...)` value is a member of the exclusion set.  A
missing id is never excluded. -/
def isExcludedPt (ex : Finset ℤ) (r : Dict) : Bool :=
  if pget r "schoolProfileId" = .vnull then false
  else
    match pyInt (pget r "schoolProfileId") with
    | .ok n => decide (n ∈ ex)
    | .error _ => false

/-- The exclusion list comprehension: keep a point when its `schoolProfileId`
is `None` or its `int(...)` value is not excluded; `int(...)` may raise. -/
def filterExcluded (ex : Finset ℤ) : List Dict → Except String (List Dict)
  | [] => .ok []
  | r :: rs =>
    if pget r "schoolProfileId" = .vnull then
      (filterExcluded ex rs).map (fun rest => r :: rest)
    else
      match pyInt (pget r "schoolProfileId") with
      | .error e => .error e
      | .ok n =>
        (filterExcluded ex rs).map (fun rest =>
          if n ∈ ex then rest else r :: rest)

/-- Step 1 of `normalize_program`: the filter is applied only when the
exclusion set is truthy (nonempty). -/
def applyExclusion (ex : Finset ℤ) (dld : List Dict) :
    Except String (List Dict) :=
  if ex = ∅ then .ok dld else filterExcluded ex dld

/-- `collect_institute_universe`: the sorted set of truthy
`instituteLegalName` values across the given rows. -/
def collect_institute_universe (dld : List Dict) : Except String (List Val) :=
  pySorted (dedupPy (dld.filterMap (fun r =>
    let v := pget r "instituteLegalName"
    if v.truthy then some v else none)))

/-- Target-year rows of one institute, in encounter order: the combination of
building `by_institute_yr` (which skips falsy names) and looking it up with
default `[]`. -/
def instRows (rowsYr : List Dict) (inst : Val) : List Dict :=
  rowsYr.filter (fun r =>
    (pget r "instituteLegalName").truthy &&
      pyEqVal (pget r "instituteLegalName") inst)

/-- Rows the normalizer emits for one institute of the universe. -/
def emitInstitute (pid : Int) (plong : Val) (year : Int) (api dash : String)
    (rowsYr : List Dict) (inst : Val) : List Dict :=
  if (instRows rowsYr inst).isEmpty then
    [placeholder_row pid plong year api dash inst]
  else (instRows rowsYr inst).map (fun r => data_row pid plong year api dash inst r)

/-- `normalize_program`: one program and its detail record to the list of
output rows, or the uncaught Python exception. -/
def normalize_program (program : Dict) (majortrans : DetailRecord)
    (year : Int) (ex : Finset ℤ) : Except String (List Dict) :=
  match pyInt (pget program "programId") with
  | .error e => .error e
  | .ok program_id =>
    match applyExclusion ex majortrans.dldAll with
    | .error e => .error e
    | .ok dld_all =>
      match collect_institute_universe dld_all with
      | .error e => .error e
      | .ok institutes =>
        .ok (institutes.flatMap
          (emitInstitute program_id (pget program "programLongName") year
            (major_trans_url program_id) (dashboard_url program_id)
            (dld_all.filter (fun r => pyEqInt (pget r "year") year))))

/-- Possible response to one HTTP GET attempt: a network-level failure
(`requests.ConnectionError` or `requests.Timeout`), an `HTTPError` carrying
the response status (when a response exists), a 2xx body that is not valid
JSON, or a successfully parsed JSON value. -/
inductive Outcome (α : Type) where
  | connErr : Outcome α
  | httpErr : Option Nat → Outcome α
  | badJson : Outcome α
  | ok : α → Outcome α
  deriving DecidableEq, Repr

/-- Condition under which `get_json` swallows an exception and retries:
a network failure, HTTP 429, or an HTTP status in [500, 600). -/
def retryable {α : Type} : Outcome α → Bool
  | .connErr => true
  | .httpErr (some s) => s == 429 || (500 ≤ s && s < 600)
  | .httpErr none => false
  | .badJson => false
  | .ok _ => false

/-- Whether an attempt outcome is a successful parse. -/
def Outcome.isOk {α : Type} : Outcome α → Bool
  | .ok _ => true
  | _ => false

/-- Result of a `get_json` call: the returned value or the surfaced
exception, the sleeps performed between attempts, and the number of HTTP
requests issued. -/
structure GJResult (α : Type) where
  result : Except (Outcome α) α
  sleeps : List ℚ
  attempts : Nat
  deriving Repr

/-- Attempt loop of `get_json`, from attempt number `attempt` with `fuel`
further attempts allowed after the current one. -/
def getJsonGo {α : Type} (script : Nat → Outcome α) (backoff : ℚ)
    (attempt : Nat) : Nat → GJResult α
  | 0 =>
    match script attempt with
    | .ok v => ⟨.ok v, [], 1⟩
    | o => ⟨.error o, [], 1⟩
  | fuel + 1 =>
    match script attempt with
    | .ok v => ⟨.ok v, [], 1⟩
    | o =>
      if retryable o then
        let rest := getJsonGo script backoff (attempt + 1) fuel
        ⟨rest.result, backoff ^ (attempt - 1) :: rest.sleeps, rest.attempts + 1⟩
      else ⟨.error o, [], 1⟩

/-- `get_json`: issue the GET described by `script` (attempt number to
outcome), retrying retryable failures up to `retries` attempts with a sleep of
`backoff ^ (attempt - 1)` seconds after each failed non-final attempt. -/
def get_json {α : Type} (script : Nat → Outcome α) (retries : Nat)
    (backoff : ℚ) : GJResult α :=
  getJsonGo script backoff 1 (retries - 1)

/-- On-disk cache: a program id maps to `none` when no file exists, to
`some none` when a file exists whose bytes are not valid JSON, and to
`some (some mt)` when a file exists holding the record `mt`. -/
abbrev Cache := Int → Option (Option DetailRecord)

/-- Result of `load_or_fetch_majortrans`: the returned record or the raised
exception, the cache directory afterwards, and whether a network request was
made. -/
structure LoadResult where
  result : Except String DetailRecord
  cache : Cache
  netCalled : Bool

/-- Exception text of `json.load` on a corrupt cached file. -/
def DECODE_ERR : String := "JSONDecodeError: cached file is not valid JSON"

/-- `load_or_fetch_majortrans`: read the id-keyed file when it exists and
`force` is false, else fetch over the network and persist a successful
response before returning it. -/
def load_or_fetch_majortrans (net : Int → Except String DetailRecord)
    (cache : Cache) (pid : Int) (force : Bool) : LoadResult :=
  match cache pid, force with
  | some file, false =>
    { result :=
        match file with
        | some mt => .ok mt
        | none => .error DECODE_ERR
      cache := cache
      netCalled := false }
  | _, _ =>
    match net pid with
    | .ok mt =>
      { result := .ok mt
        cache := fun q => if q = pid then some (some mt) else cache q
        netCalled := true }
    | .error e =>
      { result := .error e, cache := cache, netCalled := true }

/-- Token list seen by `parse_id_list`: replace commas by spaces, split on
whitespace discarding empty pieces, and strip each part. -/
def pyTokens (raw : String) : List String :=
  (pySplitWhitespace (replaceCommas raw)).map (fun p => pyStrip p)

/-- Loop body of `parse_id_list`: skip an empty part, insert a parsed
integer, raise on a non-integer part. -/
def parse_step (acc : Finset ℤ) (p : String) : Except String (Finset ℤ) :=
  if p = "" then .ok acc
  else
    match pyToInt? p with
    | some n => .ok (insert n acc)
    | none => .error ("--exclude-school-ids contains a non-integer: " ++ p)

/-- `parse_id_list`: `none` for an omitted flag, the empty set for a blank
string, otherwise the set of integers parsed from the comma/space-separated
tokens, raising on the first non-integer token. -/
def parse_id_list : Option String → Except String (Option (Finset ℤ))
  | none => .ok none
  | some raw =>
    if pyStrip raw = "" then .ok (some ∅)
    else ((pyTokens raw).foldlM parse_step (∅ : Finset ℤ)).map some

/-- Exclusion-set resolution in `main`: an omitted flag uses
`DEFAULT_EXCLUDE_IDS`, any parsed value replaces it. -/
def resolve_exclusions (raw : Option String) : Except String (Finset ℤ) :=
  match parse_id_list raw with
  | .error e => .error e
  | .ok none => .ok DEFAULT_EXCLUDE_IDS
  | .ok (some s) => .ok s

/-- One element of the Majors list payload: a JSON object or anything else. -/
inductive MElem where
  | dict : Dict → MElem
  | other : MElem

/-- Top-level shape of the Majors payload. -/
inductive MajorsTop where
  | list : List MElem → MajorsTop
  | notList : MajorsTop

/-- The `in_range` predicate of `main` over the optional inclusive bounds. -/
def in_range (startId endId : Option Int) (pid : Int) : Bool :=
  (match startId with | some s => decide (s ≤ pid) | none => true) &&
  (match endId with | some e => decide (pid ≤ e) | none => true)

/-- The `majors_filtered` comprehension: keep the dict elements that carry a
`programId` whose `int(...)` value lies in range; `int(...)` may raise, which
aborts the run. -/
def select_majors (startId endId : Option Int) :
    List MElem → Except String (List Dict)
  | [] => .ok []
  | .other :: ms => select_majors startId endId ms
  | .dict m :: ms =>
    if m.any (fun p => p.1 == "programId") then
      match pyInt (pget m "programId") with
      | .error e => .error e
      | .ok pid =>
        (select_majors startId endId ms).map (fun rest =>
          if in_range startId endId pid then m :: rest else rest)
    else select_majors startId endId ms

/-- Sort key of `majors_filtered.sort`; total because every selected element
carries an int-convertible `programId`. -/
def pidKey (m : Dict) : Int :=
  match pyInt (pget m "programId") with
  | .ok n => n
  | .error _ => 0

/-- `majors_filtered.sort(key=...)`: stable ascending sort by program id. -/
def sort_majors (sel : List Dict) : List Dict :=
  sortLe (fun a b => decide (pidKey a ≤ pidKey b)) sel

/-- State of the main loop after processing a list of programs: accumulated
rows, the cache directory, the ids fetched over the network, the per-program
failure log, and the exception that aborted the run, if any. -/
structure LoopResult where
  rows : List Dict
  cache : Cache
  netCalls : List Int
  logs : List (Int × String)
  abort : Option String

/-- Body of the `try` block of the main loop: load-or-fetch already ran with
result `res`; a load failure propagates, otherwise the record is
normalized. -/
def item_try (m : Dict) (year : Int) (ex : Finset ℤ)
    (res : Except String DetailRecord) : Except String (List Dict) :=
  match res with
  | .error e => .error e
  | .ok mt => normalize_program m mt year ex

/-- The per-program loop of `main`: `pid = int(m["programId"])` runs outside
the `try` block and aborts the run on failure; loading and normalizing run
inside it, so their exceptions are logged with the program id and the loop
continues. -/
def run_loop (net : Int → Except String DetailRecord) (year : Int)
    (ex : Finset ℤ) (force : Bool) : Cache → List Dict → LoopResult
  | c, [] => ⟨[], c, [], [], none⟩
  | c, m :: ms =>
    match pyInt (pget m "programId") with
    | .error e => ⟨[], c, [], [], some e⟩
    | .ok pid =>
      let lr := load_or_fetch_majortrans net c pid force
      let calls := if lr.netCalled then [pid] else []
      match item_try m year ex lr.result with
      | .ok rows =>
        let rest := run_loop net year ex force lr.cache ms
        ⟨rows ++ rest.rows, rest.cache, calls ++ rest.netCalls, rest.logs,
          rest.abort⟩
      | .error e =>
        let rest := run_loop net year ex force lr.cache ms
        ⟨rest.rows, rest.cache, calls ++ rest.netCalls, (pid, e) :: rest.logs,
          rest.abort⟩

/-- Command-line arguments relevant to the modelled behaviour. -/
structure Args where
  startId : Option Int
  endId : Option Int
  year : Int
  excludeRaw : Option String
  force : Bool

/-- Observable outcome of one `main` run: the produced rows (or the uncaught
exception, which exits the process with nonzero status), whether the Majors
endpoint was called, which detail ids were fetched over the network, the
final cache directory, and the per-program failure log. -/
structure MainResult where
  exit : Except String (List Dict)
  majorsCalled : Bool
  detailCalls : List Int
  cache : Cache
  logs : List (Int × String)

/-- `main`: parse the exclusion flag, fetch the Majors list, fail fast when
the payload is not a list, select and sort the id range, then run the
per-program loop. -/
def main_run (majorsResp : Except String MajorsTop)
    (net : Int → Except String DetailRecord) (c0 : Cache) (args : Args) :
    MainResult :=
  match resolve_exclusions args.excludeRaw with
  | .error e => ⟨.error e, false, [], c0, []⟩
  | .ok ex =>
    match majorsResp with
    | .error e => ⟨.error e, true, [], c0, []⟩
    | .ok .notList => ⟨.error "Majors payload is not a list.", true, [], c0, []⟩
    | .ok (.list ms) =>
      match select_majors args.startId args.endId ms with
      | .error e => ⟨.error e, true, [], c0, []⟩
      | .ok sel =>
        let L := run_loop net args.year ex args.force c0 (sort_majors sel)
        match L.abort with
        | some e => ⟨.error e, true, L.netCalls, L.cache, L.logs⟩
        | none => ⟨.ok L.rows, true, L.netCalls, L.cache, L.logs⟩

/-! Basic properties of the Python-equality and sorting models. -/

theorem pyEqVal_refl (a : Val) : pyEqVal a a = true := by
  cases a <;> simp [pyEqVal, Val.asNum?, Val.asStr?]

theorem pyEqVal_symm (a b : Val) : pyEqVal a b = pyEqVal b a := by
  cases a <;> cases b <;>
    simp [pyEqVal, Val.asNum?, Val.asStr?] <;>
    constructor <;> (intro h; exact h.symm)

theorem pyEqVal_trans {a b c : Val} (h1 : pyEqVal a b = true)
    (h2 : pyEqVal b c = true) : pyEqVal a c = true := by
  cases a <;> cases b <;> cases c <;>
    simp_all [pyEqVal, Val.asNum?, Val.asStr?]

theorem insLe_perm {α : Type} (le : α → α → Bool) (v : α) (l : List α) :
    (insLe le v l).Perm (v :: l) := by
  induction l with
  | nil => exact List.Perm.refl _
  | cons w ws ih =>
    rw [insLe]
    split
    · exact List.Perm.refl _
    · exact (ih.cons w).trans (List.Perm.swap v w ws)

theorem sortLe_perm {α : Type} (le : α → α → Bool) (l : List α) :
    (sortLe le l).Perm l := by
  induction l with
  | nil => exact List.Perm.refl _
  | cons v vs ih => exact (insLe_perm le v (sortLe le vs)).trans (ih.cons v)

theorem pySorted_perm {l out : List Val} (h : pySorted l = .ok out) :
    out.Perm l := by
  rcases l with _ | ⟨a, _ | ⟨b, rest⟩⟩
  · simp only [pySorted] at h
    cases h
    exact List.Perm.refl _
  · simp only [pySorted] at h
    cases h
    exact List.Perm.refl _
  · simp only [pySorted] at h
    split at h
    · cases h
      exact sortLe_perm _ _
    · split at h
      · cases h
        exact sortLe_perm _ _
      · cases h

theorem dedupPyAux_mem_acc {acc : List Val} {v : Val} (l : List Val)
    (hv : v ∈ acc) : v ∈ dedupPyAux acc l := by
  induction l generalizing acc with
  | nil => exact hv
  | cons w ws ih =>
    rw [dedupPyAux]
    split
    · exact ih hv
    · exact ih (List.mem_append_left _ hv)

theorem dedupPyAux_sub {acc : List Val} {l : List Val} {v : Val}
    (hv : v ∈ dedupPyAux acc l) : v ∈ acc ∨ v ∈ l := by
  induction l generalizing acc with
  | nil => exact Or.inl hv
  | cons w ws ih =>
    rw [dedupPyAux] at hv
    revert hv
    split
    · intro hv
      rcases ih hv with h | h
      · exact Or.inl h
      · exact Or.inr (List.mem_cons_of_mem _ h)
    · intro hv
      rcases ih hv with h | h
      · rcases List.mem_append.1 h with h | h
        · exact Or.inl h
        · simp at h
          exact Or.inr (h ▸ List.mem_cons_self _ _)
      · exact Or.inr (List.mem_cons_of_mem _ h)

theorem dedupPyAux_complete {l : List Val} {v : Val} (acc : List Val)
    (hv : v ∈ l) : ∃ w ∈ dedupPyAux acc l, pyEqVal v w = true := by
  induction l generalizing acc with
  | nil => cases hv
  | cons u us ih =>
    rw [dedupPyAux]
    rcases List.mem_cons.1 hv with rfl | hv
    · split
      · rename_i hany
        rcases List.any_eq_true.1 hany with ⟨w, hw, heq⟩
        exact ⟨w, dedupPyAux_mem_acc us hw, (pyEqVal_symm w v) ▸ heq⟩
      · exact ⟨v, dedupPyAux_mem_acc us (List.mem_append_right _ (List.mem_singleton.2 rfl)),
          pyEqVal_refl v⟩
    · split
      · exact ih acc hv
      · exact ih _ hv

theorem dedupPyAux_pairwise {acc : List Val} (l : List Val)
    (hacc : acc.Pairwise (fun a b => pyEqVal a b = false)) :
    (dedupPyAux acc l).Pairwise (fun a b => pyEqVal a b = false) := by
  induction l generalizing acc with
  | nil => exact hacc
  | cons v vs ih =>
    rw [dedupPyAux]
    split
    · exact ih hacc
    · rename_i hany
      refine ih (List.pairwise_append.2 ⟨hacc, List.pairwise_singleton _ _, ?_⟩)
      intro a ha b hb
      simp at hb
      subst hb
      by_contra hne
      exact hany (List.any_eq_true.2 ⟨a, ha, by simpa using hne⟩)

theorem dedupPy_pairwise (l : List Val) :
    (dedupPy l).Pairwise (fun a b => pyEqVal a b = false) :=
  dedupPyAux_pairwise l List.Pairwise.nil

theorem dedupPy_complete {l : List Val} {v : Val} (hv : v ∈ l) :
    ∃ w ∈ dedupPy l, pyEqVal v w = true :=
  dedupPyAux_complete [] hv

theorem dedupPy_sub {l : List Val} {v : Val} (hv : v ∈ dedupPy l) : v ∈ l := by
  rcases dedupPyAux_sub hv with h | h
  · cases h
  · exact h

/-! Properties of the institute universe. -/

/-- The truthy institute name of a row, when present. -/
def nameOf? (r : Dict) : Option Val :=
  let v := pget r "instituteLegalName"
  if v.truthy then some v else none

theorem collect_eq (dld : List Dict) :
    collect_institute_universe dld = pySorted (dedupPy (dld.filterMap nameOf?)) :=
  rfl

theorem universe_pairwise {dld : List Dict} {insts : List Val}
    (hu : collect_institute_universe dld = .ok insts) :
    insts.Pairwise (fun a b => pyEqVal a b = false) := by
  rw [collect_eq] at hu
  have hperm := pySorted_perm hu
  exact (dedupPy_pairwise _).perm hperm.symm
    (fun h => by rw [pyEqVal_symm]; exact h)

theorem universe_complete {dld : List Dict} {insts : List Val} {r : Dict}
    (hu : collect_institute_universe dld = .ok insts) (hr : r ∈ dld)
    (ht : (pget r "instituteLegalName").truthy = true) :
    ∃ inst ∈ insts, pyEqVal (pget r "instituteLegalName") inst = true := by
  rw [collect_eq] at hu
  have hperm := pySorted_perm hu
  have hmem : pget r "instituteLegalName" ∈ dld.filterMap nameOf? := by
    refine List.mem_filterMap.2 ⟨r, hr, ?_⟩
    simp [nameOf?, ht]
  rcases dedupPy_complete hmem with ⟨w, hw, heq⟩
  exact ⟨w, hperm.mem_iff.2 hw, heq⟩

theorem universe_sound {dld : List Dict} {insts : List Val} {inst : Val}
    (hu : collect_institute_universe dld = .ok insts) (hi : inst ∈ insts) :
    ∃ r ∈ dld, (pget r "instituteLegalName").truthy = true ∧
      pget r "instituteLegalName" = inst := by
  rw [collect_eq] at hu
  have hperm := pySorted_perm hu
  have hmem : inst ∈ dld.filterMap nameOf? := dedupPy_sub (hperm.mem_iff.1 hi)
  rcases List.mem_filterMap.1 hmem with ⟨r, hr, hv⟩
  simp only [nameOf?] at hv
  split at hv
  · cases hv
    exact ⟨r, hr, by assumption, rfl⟩
  · cases hv

/-! Shape of the emitted rows. -/

theorem pget_data_row_name (pid : Int) (plong : Val) (year : Int)
    (api dash : String) (inst : Val) (r : Dict) :
    pget (data_row pid plong year api dash inst r) "instituteLegalName" =
      inst := rfl

theorem pget_placeholder_name (pid : Int) (plong : Val) (year : Int)
    (api dash : String) (inst : Val) :
    pget (placeholder_row pid plong year api dash inst) "instituteLegalName" =
      inst := rfl

theorem emitInstitute_name {pid : Int} {plong : Val} {year : Int}
    {api dash : String} {rowsYr : List Dict} {inst : Val} {row : Dict}
    (hrow : row ∈ emitInstitute pid plong year api dash rowsYr inst) :
    pget row "instituteLegalName" = inst := by
  unfold emitInstitute at hrow
  split at hrow
  · simp at hrow
    subst hrow
    exact pget_placeholder_name ..
  · rcases List.mem_map.1 hrow with ⟨r, _, rfl⟩
    exact pget_data_row_name ..

theorem filter_flatMap_attr (insts : List Val) (f : Val → List Dict)
    (inst : Val)
    (hname : ∀ j ∈ insts, ∀ row ∈ f j, pget row "instituteLegalName" = j)
    (hpw : insts.Pairwise (fun a b => pyEqVal a b = false))
    (hmem : inst ∈ insts) :
    (insts.flatMap f).filter
      (fun row => pyEqVal (pget row "instituteLegalName") inst) = f inst := by
  induction insts with
  | nil => cases hmem
  | cons j js ih =>
    rw [List.flatMap_cons, List.filter_append]
    rcases List.pairwise_cons.1 hpw with ⟨hj, hjs⟩
    rcases List.mem_cons.1 hmem with rfl | hmem2
    · have h1 : (f inst).filter
          (fun row => pyEqVal (pget row "instituteLegalName") inst) = f inst := by
        refine List.filter_eq_self.2 ?_
        intro row hrow
        rw [hname inst (List.mem_cons_self _ _) row hrow]
        exact pyEqVal_refl inst
      have h2 : (js.flatMap f).filter
          (fun row => pyEqVal (pget row "instituteLegalName") inst) = [] := by
        refine List.filter_eq_nil_iff.2 ?_
        intro row hrow
        rcases List.mem_flatMap.1 hrow with ⟨j2, hj2, hrow2⟩
        rw [hname j2 (List.mem_cons_of_mem _ hj2) row hrow2]
        rw [pyEqVal_symm]
        simp [hj j2 hj2]
      rw [h1, h2, List.append_nil]
    · have h1 : (f j).filter
          (fun row => pyEqVal (pget row "instituteLegalName") inst) = [] := by
        refine List.filter_eq_nil_iff.2 ?_
        intro row hrow
        rw [hname j (List.mem_cons_self _ _) row hrow]
        simp [hj inst hmem2]
      rw [h1, List.nil_append]
      exact ih (fun j2 hj2 => hname j2 (List.mem_cons_of_mem _ hj2)) hjs hmem2

/-! Inversion of a successful `normalize_program` call. -/

theorem normalize_program_eq {program : Dict} {mt : DetailRecord}
    (year : Int) {pid : Int} {ex : Finset ℤ} {dld_all : List Dict}
    {insts : List Val}
    (hpid : pyInt (pget program "programId") = .ok pid)
    (hex : applyExclusion ex mt.dldAll = .ok dld_all)
    (hu : collect_institute_universe dld_all = .ok insts) :
    normalize_program program mt year ex = .ok (insts.flatMap
      (emitInstitute pid (pget program "programLongName") year
        (major_trans_url pid) (dashboard_url pid)
        (dld_all.filter (fun r => pyEqInt (pget r "year") year)))) := by
  unfold normalize_program
  rw [hpid, hex]
  simp [hu]

theorem normalize_ok_inv {program : Dict} {mt : DetailRecord} {year : Int}
    {ex : Finset ℤ} {rows : List Dict}
    (hn : normalize_program program mt year ex = .ok rows) :
    ∃ pid dld_all insts,
      pyInt (pget program "programId") = .ok pid ∧
      applyExclusion ex mt.dldAll = .ok dld_all ∧
      collect_institute_universe dld_all = .ok insts ∧
      rows = insts.flatMap (emitInstitute pid (pget program "programLongName")
        year (major_trans_url pid) (dashboard_url pid)
        (dld_all.filter (fun r => pyEqInt (pget r "year") year))) := by
  unfold normalize_program at hn
  split at hn
  · cases hn
  · split at hn
    · cases hn
    · split at hn
      · cases hn
      · exact ⟨_, _, _, by assumption, by assumption, by assumption,
          (Except.ok.inj hn).symm⟩

instance {ε α : Type} [DecidableEq ε] [DecidableEq α] :
    DecidableEq (Except ε α) := fun a b =>
  match a, b with
  | .error e, .error f =>
    if h : e = f then .isTrue (h ▸ rfl)
    else .isFalse (fun hh => h (Except.error.inj hh))
  | .ok x, .ok y =>
    if h : x = y then .isTrue (h ▸ rfl)
    else .isFalse (fun hh => h (Except.ok.inj hh))
  | .error _, .ok _ => .isFalse (fun hh => Except.noConfusion hh)
  | .ok _, .error _ => .isFalse (fun hh => Except.noConfusion hh)

/-- C1: for every program, detail record, target year and exclusion set, once
the exclusion filter and universe construction succeed, every institute of
the universe with at least one target-year point yields exactly one output
row per point (metric fields copied verbatim, flag 1), every institute with
no target-year point yields exactly one placeholder row (all metrics null,
flag 0), and every filtered target-year point with a truthy institute name
has its institute in the universe, so none is silently dropped. -/
theorem c1_rows_per_institute
    (program : Dict) (mt : DetailRecord) (year pid : Int) (ex : Finset ℤ)
    (dld_all : List Dict) (insts : List Val) (rowsOut : List Dict)
    (hpid : pyInt (pget program "programId") = .ok pid)
    (hex : applyExclusion ex mt.dldAll = .ok dld_all)
    (hu : collect_institute_universe dld_all = .ok insts)
    (hn : normalize_program program mt year ex = .ok rowsOut) :
    (∀ inst ∈ insts,
      (instRows (dld_all.filter (fun r => pyEqInt (pget r "year") year)) inst ≠ [] →
        rowsOut.filter (fun row => pyEqVal (pget row "instituteLegalName") inst)
          = (instRows (dld_all.filter (fun r => pyEqInt (pget r "year") year)) inst).map
              (data_row pid (pget program "programLongName") year
                (major_trans_url pid) (dashboard_url pid) inst)) ∧
      (instRows (dld_all.filter (fun r => pyEqInt (pget r "year") year)) inst = [] →
        rowsOut.filter (fun row => pyEqVal (pget row "instituteLegalName") inst)
          = [placeholder_row pid (pget program "programLongName") year
              (major_trans_url pid) (dashboard_url pid) inst])) ∧
    (∀ r ∈ dld_all, pyEqInt (pget r "year") year = true →
      (pget r "instituteLegalName").truthy = true →
      ∃ inst ∈ insts, pyEqVal (pget r "instituteLegalName") inst = true) := by
  have heq := normalize_program_eq year hpid hex hu
  rw [hn] at heq
  have hrows := Except.ok.inj heq
  constructor
  · intro inst hmem
    have hfilter := filter_flatMap_attr insts
      (emitInstitute pid (pget program "programLongName") year
        (major_trans_url pid) (dashboard_url pid)
        (dld_all.filter (fun r => pyEqInt (pget r "year") year))) inst
      (fun j hj row hrow => emitInstitute_name hrow)
      (universe_pairwise hu) hmem
    constructor
    · intro hne
      rw [hrows, hfilter]
      unfold emitInstitute
      rw [if_neg (by simp [hne])]
    · intro hemp
      rw [hrows, hfilter]
      unfold emitInstitute
      rw [if_pos (by simp [hemp])]
  · intro r hr hyr ht
    exact universe_complete hu hr ht

/-- C10: every row produced by a successful `normalize_program` call, data
row or placeholder, carries exactly the seven per-program fields followed by
the fourteen metric keys, in that order, so all rows share one schema. -/
theorem c10_uniform_schema
    (program : Dict) (mt : DetailRecord) (year : Int) (ex : Finset ℤ)
    (rows : List Dict) (row : Dict)
    (hn : normalize_program program mt year ex = .ok rows) (hrow : row ∈ rows) :
    row.map Prod.fst =
      ["programId", "programLongName", "year", "instituteLegalName",
       "has_year_data", "apiUrl", "dashboardUrl"] ++ metric_keys := by
  rcases normalize_ok_inv hn with ⟨pid, dld_all, insts, hp, he, hc, rfl⟩
  rcases List.mem_flatMap.1 hrow with ⟨inst, hinst, hrow2⟩
  unfold emitInstitute at hrow2
  split at hrow2
  · simp at hrow2
    subst hrow2
    simp [placeholder_row, base_fields, metric_keys]
  · rcases List.mem_map.1 hrow2 with ⟨r, hr, rfl⟩
    simp [data_row, base_fields, metric_keys]

/-! Concrete sample data used by the witnesses. -/

/-- Sample program entry. -/
def wProg : Dict :=
  [("programId", Val.vint 30), ("programLongName", Val.vstr "Nursing")]

/-- Sample target-year data point of institute Alpha U, bachelor level. -/
def wDpA1 : Dict :=
  [("instituteLegalName", Val.vstr "Alpha U"), ("year", Val.vint 2022),
   ("schoolProfileId", Val.vint 10), ("degreeLevelId", Val.vint 3)]

/-- Sample target-year data point of institute Alpha U, master level. -/
def wDpA2 : Dict :=
  [("instituteLegalName", Val.vstr "Alpha U"), ("year", Val.vint 2022),
   ("schoolProfileId", Val.vint 10), ("degreeLevelId", Val.vint 5)]

/-- Sample historical-only data point of institute Beta C. -/
def wDpB : Dict :=
  [("instituteLegalName", Val.vstr "Beta C"), ("year", Val.vint 2019),
   ("schoolProfileId", Val.vint 20)]

/-- Sample detail record with two target-year points and one 2019 point. -/
def wMt : DetailRecord := ⟨some [wDpA1, wDpA2, wDpB]⟩

/-- Rows produced for `wProg`/`wMt` at year 2022 with Beta C excluded. -/
def wRowsC1 : List Dict :=
  [data_row 30 (Val.vstr "Nursing") 2022 (major_trans_url 30)
    (dashboard_url 30) (Val.vstr "Alpha U") wDpA1,
   data_row 30 (Val.vstr "Nursing") 2022 (major_trans_url 30)
    (dashboard_url 30) (Val.vstr "Alpha U") wDpA2]

/-- Witness for C1 at a concrete program, detail record and exclusion set. -/
theorem c1_rows_per_institute_witness :
    (pyInt (pget wProg "programId") = .ok 30 ∧
     applyExclusion {20} wMt.dldAll = .ok [wDpA1, wDpA2] ∧
     collect_institute_universe [wDpA1, wDpA2] = .ok [Val.vstr "Alpha U"] ∧
     normalize_program wProg wMt 2022 {20} = .ok wRowsC1) ∧
    ((∀ inst ∈ [Val.vstr "Alpha U"],
      (instRows ([wDpA1, wDpA2].filter (fun r => pyEqInt (pget r "year") 2022)) inst ≠ [] →
        wRowsC1.filter (fun row => pyEqVal (pget row "instituteLegalName") inst)
          = (instRows ([wDpA1, wDpA2].filter (fun r => pyEqInt (pget r "year") 2022)) inst).map
              (data_row 30 (pget wProg "programLongName") 2022
                (major_trans_url 30) (dashboard_url 30) inst)) ∧
      (instRows ([wDpA1, wDpA2].filter (fun r => pyEqInt (pget r "year") 2022)) inst = [] →
        wRowsC1.filter (fun row => pyEqVal (pget row "instituteLegalName") inst)
          = [placeholder_row 30 (pget wProg "programLongName") 2022
              (major_trans_url 30) (dashboard_url 30) inst])) ∧
    (∀ r ∈ [wDpA1, wDpA2], pyEqInt (pget r "year") 2022 = true →
      (pget r "instituteLegalName").truthy = true →
      ∃ inst ∈ [Val.vstr "Alpha U"],
        pyEqVal (pget r "instituteLegalName") inst = true)) :=
  ⟨⟨by decide, by decide, by decide, by decide⟩,
    c1_rows_per_institute wProg wMt 2022 30 {20} [wDpA1, wDpA2]
      [Val.vstr "Alpha U"] wRowsC1 (by decide) (by decide) (by decide)
      (by decide)⟩

/-- Witness for C10 at a concrete program and row. -/
theorem c10_uniform_schema_witness :
    (normalize_program wProg wMt 2022 {20} = .ok wRowsC1 ∧
     data_row 30 (Val.vstr "Nursing") 2022 (major_trans_url 30)
       (dashboard_url 30) (Val.vstr "Alpha U") wDpA1 ∈ wRowsC1) ∧
    (data_row 30 (Val.vstr "Nursing") 2022 (major_trans_url 30)
       (dashboard_url 30) (Val.vstr "Alpha U") wDpA1).map Prod.fst =
      ["programId", "programLongName", "year", "instituteLegalName",
       "has_year_data", "apiUrl", "dashboardUrl"] ++ metric_keys :=
  ⟨⟨by decide, by decide⟩,
    c10_uniform_schema wProg wMt 2022 {20} wRowsC1
      (data_row 30 (Val.vstr "Nursing") 2022 (major_trans_url 30)
        (dashboard_url 30) (Val.vstr "Alpha U") wDpA1)
      (by decide) (by decide)⟩

/-! Characterization of the exclusion filter. -/

/-- A data point on which the exclusion comprehension cannot raise: its
`schoolProfileId` is missing or convertible by `int(...)`. -/
def spidOk (r : Dict) : Bool :=
  decide (pget r "schoolProfileId" = .vnull) ||
    (pyInt (pget r "schoolProfileId")).isOk

theorem filterExcluded_ok_eq {ex : Finset ℤ} :
    ∀ {l out : List Dict}, filterExcluded ex l = .ok out →
      out = l.filter (fun r => !isExcludedPt ex r) := by
  intro l
  induction l with
  | nil =>
    intro out h
    cases h
    rfl
  | cons r rs ih =>
    intro out h
    rw [filterExcluded] at h
    by_cases hnull : pget r "schoolProfileId" = .vnull
    · rw [if_pos hnull] at h
      cases hrec : filterExcluded ex rs with
      | error e =>
        rw [hrec] at h
        cases h
      | ok rest =>
        rw [hrec] at h
        cases h
        simp [List.filter_cons, isExcludedPt, hnull, ih hrec]
    · rw [if_neg hnull] at h
      cases hint : pyInt (pget r "schoolProfileId") with
      | error e =>
        rw [hint] at h
        cases h
      | ok n =>
        rw [hint] at h
        cases hrec : filterExcluded ex rs with
        | error e =>
          rw [hrec] at h
          cases h
        | ok rest =>
          rw [hrec] at h
          cases h
          by_cases hmem : n ∈ ex
          · simp [List.filter_cons, isExcludedPt, hnull, hint, hmem, ih hrec]
          · simp [List.filter_cons, isExcludedPt, hnull, hint, hmem, ih hrec]

theorem isExcludedPt_empty (r : Dict) : isExcludedPt ∅ r = false := by
  unfold isExcludedPt
  split
  · rfl
  · split <;> simp

theorem applyExclusion_ok_eq {ex : Finset ℤ} {l out : List Dict}
    (h : applyExclusion ex l = .ok out) :
    out = l.filter (fun r => !isExcludedPt ex r) := by
  unfold applyExclusion at h
  split at h
  · cases h
    rename_i hemp
    subst hemp
    refine (List.filter_eq_self.2 ?_).symm
    intro r hr
    simp [isExcludedPt_empty]
  · exact filterExcluded_ok_eq h

theorem filterExcluded_isOk_iff {ex : Finset ℤ} :
    ∀ l : List Dict, (∃ out, filterExcluded ex l = .ok out) ↔
      (∀ r ∈ l, spidOk r = true) := by
  intro l
  induction l with
  | nil =>
    constructor
    · intro _ r hr
      cases hr
    · intro _
      exact ⟨[], rfl⟩
  | cons r rs ih =>
    rw [filterExcluded]
    constructor
    · intro ⟨out, h⟩
      by_cases hnull : pget r "schoolProfileId" = .vnull
      · rw [if_pos hnull] at h
        cases hrec : filterExcluded ex rs with
        | error e =>
          rw [hrec] at h
          cases h
        | ok rest =>
          intro q hq
          rcases List.mem_cons.1 hq with rfl | hq2
          · simp [spidOk, hnull]
          · exact (ih.1 ⟨rest, hrec⟩) q hq2
      · rw [if_neg hnull] at h
        cases hint : pyInt (pget r "schoolProfileId") with
        | error e =>
          rw [hint] at h
          cases h
        | ok n =>
          rw [hint] at h
          cases hrec : filterExcluded ex rs with
          | error e =>
            rw [hrec] at h
            cases h
          | ok rest =>
            intro q hq
            rcases List.mem_cons.1 hq with rfl | hq2
            · simp [spidOk, hint, Except.isOk, Except.toBool]
            · exact (ih.1 ⟨rest, hrec⟩) q hq2
    · intro hall
      have hr := hall r (List.mem_cons_self _ _)
      rcases ih.2 (fun q hq => hall q (List.mem_cons_of_mem _ hq)) with ⟨rest, hrec⟩
      by_cases hnull : pget r "schoolProfileId" = .vnull
      · exact ⟨r :: rest, by rw [if_pos hnull, hrec]; rfl⟩
      · cases hint : pyInt (pget r "schoolProfileId") with
        | error e =>
          exfalso
          simp [spidOk, hnull, hint, Except.isOk, Except.toBool] at hr
        | ok n =>
          refine ⟨if n ∈ ex then rest else r :: rest, ?_⟩
          simp only [if_neg hnull, hint, hrec, Except.map]

/-- Keeping only rows that satisfy `p` commutes away when every row kept by
`q` already satisfies `p`. -/
theorem filter_absorb {α : Type} (p q : α → Bool) (l : List α)
    (h : ∀ a, q a = true → p a = true) :
    (l.filter p).filter q = l.filter q := by
  induction l with
  | nil => rfl
  | cons a as ih =>
    by_cases hp : p a = true
    · simp [List.filter_cons, hp, ih]
    · have hq : q a = false := by
        cases hqa : q a
        · rfl
        · exact absurd (h a hqa) hp
      simp [List.filter_cons, hp, hq, ih]

/-- C2: once `normalize_program` succeeds, the exclusion step removed exactly
the points whose `schoolProfileId` is a member of the exclusion set (a
missing id is never excluded); filtering precedes universe construction, so
an institute all of whose points are excluded contributes no output row at
all; and every institute name of a pre-exclusion point either has a
representative in the output universe or appears in no row. -/
theorem c2_exclusion_before_universe
    (program : Dict) (mt : DetailRecord) (year : Int) (ex : Finset ℤ)
    (dld_all rows : List Dict) (insts : List Val)
    (hex : applyExclusion ex mt.dldAll = .ok dld_all)
    (hu : collect_institute_universe dld_all = .ok insts)
    (hn : normalize_program program mt year ex = .ok rows) :
    dld_all = mt.dldAll.filter (fun r => !isExcludedPt ex r) ∧
    (∀ N : Val,
      (∀ r ∈ mt.dldAll, pyEqVal (pget r "instituteLegalName") N = true →
        isExcludedPt ex r = true) →
      ∀ row ∈ rows, pyEqVal (pget row "instituteLegalName") N = false) ∧
    (∀ N : Val, (∃ inst ∈ insts, pyEqVal N inst = true) ∨
      (∀ row ∈ rows, pyEqVal (pget row "instituteLegalName") N = false)) := by
  rcases normalize_ok_inv hn with ⟨pid, d2, i2, hp, he2, hc2, hr2⟩
  have heq := normalize_program_eq year hp hex hu
  rw [hn] at heq
  have hrows := Except.ok.inj heq
  have hchar := applyExclusion_ok_eq hex
  have hrowname : ∀ row ∈ rows, ∃ inst ∈ insts,
      pget row "instituteLegalName" = inst := by
    intro row hrow
    rw [hrows] at hrow
    rcases List.mem_flatMap.1 hrow with ⟨inst, hinst, hrow2⟩
    exact ⟨inst, hinst, emitInstitute_name hrow2⟩
  refine ⟨hchar, ?_, ?_⟩
  · intro N hNex row hrow
    rcases hrowname row hrow with ⟨inst, hinst, hname⟩
    rcases universe_sound hu hinst with ⟨rsrc, hrsrc, htruthy, hrname⟩
    rw [hname]
    by_contra hne
    have hinstN : pyEqVal inst N = true := by
      cases hcase : pyEqVal inst N
      · exact absurd hcase hne
      · rfl
    have hrsrc2 : rsrc ∈ mt.dldAll.filter (fun r => !isExcludedPt ex r) := by
      rw [← hchar]
      exact hrsrc
    rcases List.mem_filter.1 hrsrc2 with ⟨hrsrcMem, hrsrcKeep⟩
    have hEqN : pyEqVal (pget rsrc "instituteLegalName") N = true := by
      rw [hrname]
      exact hinstN
    have := hNex rsrc hrsrcMem hEqN
    simp [this] at hrsrcKeep
  · intro N
    by_cases hex2 : ∃ inst ∈ insts, pyEqVal N inst = true
    · exact Or.inl hex2
    · refine Or.inr ?_
      intro row hrow
      rcases hrowname row hrow with ⟨inst, hinst, hname⟩
      rw [hname]
      by_contra hne
      have hinstN : pyEqVal inst N = true := by
        cases hcase : pyEqVal inst N
        · exact absurd hcase hne
        · rfl
      exact hex2 ⟨inst, hinst, by rw [pyEqVal_symm]; exact hinstN⟩

/-- Witness for C2 at a concrete detail record and exclusion set. -/
theorem c2_exclusion_before_universe_witness :
    (applyExclusion {20} wMt.dldAll = .ok [wDpA1, wDpA2] ∧
     collect_institute_universe [wDpA1, wDpA2] = .ok [Val.vstr "Alpha U"] ∧
     normalize_program wProg wMt 2022 {20} = .ok wRowsC1) ∧
    ([wDpA1, wDpA2] = wMt.dldAll.filter (fun r => !isExcludedPt {20} r) ∧
    (∀ N : Val,
      (∀ r ∈ wMt.dldAll, pyEqVal (pget r "instituteLegalName") N = true →
        isExcludedPt {20} r = true) →
      ∀ row ∈ wRowsC1, pyEqVal (pget row "instituteLegalName") N = false) ∧
    (∀ N : Val, (∃ inst ∈ [Val.vstr "Alpha U"], pyEqVal N inst = true) ∨
      (∀ row ∈ wRowsC1,
        pyEqVal (pget row "instituteLegalName") N = false))) :=
  ⟨⟨by decide, by decide, by decide⟩,
    c2_exclusion_before_universe wProg wMt 2022 {20} [wDpA1, wDpA2] wRowsC1
      [Val.vstr "Alpha U"] (by decide) (by decide) (by decide)⟩

/-! Data points without a truthy institute name are invisible. -/

theorem filterMap_nameOf_filter_truthy (l : List Dict) :
    ((l.filter (fun r => (pget r "instituteLegalName").truthy)).filterMap
      nameOf?) = l.filterMap nameOf? := by
  induction l with
  | nil => rfl
  | cons r rs ih =>
    by_cases ht : (pget r "instituteLegalName").truthy = true
    · simp only [List.filter_cons, ht, if_pos, List.filterMap_cons]
      rw [ih]
    · have hnone : nameOf? r = none := by
        simp [nameOf?, ht]
      simp only [List.filter_cons, ht, List.filterMap_cons, hnone]
      simp only [Bool.false_eq_true, if_false]
      rw [ih]

theorem collect_filter_truthy (l : List Dict) :
    collect_institute_universe
      (l.filter (fun r => (pget r "instituteLegalName").truthy)) =
    collect_institute_universe l := by
  rw [collect_eq, collect_eq, filterMap_nameOf_filter_truthy]

theorem instRows_filter_truthy (dld : List Dict) (year : Int) (inst : Val) :
    instRows ((dld.filter (fun r => (pget r "instituteLegalName").truthy)).filter
      (fun r => pyEqInt (pget r "year") year)) inst =
    instRows (dld.filter (fun r => pyEqInt (pget r "year") year)) inst := by
  unfold instRows
  have habs := filter_absorb
    (fun r : Dict => (pget r "instituteLegalName").truthy)
    (fun r : Dict => (pget r "instituteLegalName").truthy &&
      pyEqVal (pget r "instituteLegalName") inst) dld
    (fun r hr => by
      simp only [Bool.and_eq_true] at hr
      exact hr.1)
  calc
    ((dld.filter (fun r => (pget r "instituteLegalName").truthy)).filter
        (fun r => pyEqInt (pget r "year") year)).filter
        (fun r => (pget r "instituteLegalName").truthy &&
          pyEqVal (pget r "instituteLegalName") inst)
      = ((dld.filter (fun r => (pget r "instituteLegalName").truthy)).filter
          (fun r => (pget r "instituteLegalName").truthy &&
            pyEqVal (pget r "instituteLegalName") inst)).filter
          (fun r => pyEqInt (pget r "year") year) :=
        List.filter_comm _ _ _
    _ = (dld.filter (fun r => (pget r "instituteLegalName").truthy &&
          pyEqVal (pget r "instituteLegalName") inst)).filter
          (fun r => pyEqInt (pget r "year") year) := by rw [habs]
    _ = (dld.filter (fun r => pyEqInt (pget r "year") year)).filter
          (fun r => (pget r "instituteLegalName").truthy &&
            pyEqVal (pget r "instituteLegalName") inst) :=
        List.filter_comm _ _ _

/-- C9: a data point whose `instituteLegalName` is missing, `None` or falsy
contributes neither to the institute universe nor to any output row: deleting
all such points from the detail record leaves a successful
`normalize_program` result unchanged. -/
theorem c9_nameless_points_ignored
    (program : Dict) (mt : DetailRecord) (year : Int) (ex : Finset ℤ)
    (rows : List Dict)
    (hn : normalize_program program mt year ex = .ok rows) :
    normalize_program program
      ⟨some (mt.dldAll.filter (fun r => (pget r "instituteLegalName").truthy))⟩
      year ex = .ok rows := by
  rcases normalize_ok_inv hn with ⟨pid, dld_all, insts, hp, he, hc, hr⟩
  have hdld : applyExclusion ex
      (DetailRecord.mk (some (mt.dldAll.filter
        (fun r => (pget r "instituteLegalName").truthy)))).dldAll =
      .ok (dld_all.filter (fun r => (pget r "instituteLegalName").truthy)) := by
    show applyExclusion ex
      (mt.dldAll.filter (fun r => (pget r "instituteLegalName").truthy)) =
      .ok (dld_all.filter (fun r => (pget r "instituteLegalName").truthy))
    unfold applyExclusion at he ⊢
    by_cases hexE : ex = ∅
    · rw [if_pos hexE] at he ⊢
      rw [Except.ok.inj he]
    · rw [if_neg hexE] at he ⊢
      have hall := (filterExcluded_isOk_iff mt.dldAll).1 ⟨dld_all, he⟩
      have hall2 : ∀ r ∈ mt.dldAll.filter
          (fun r => (pget r "instituteLegalName").truthy), spidOk r = true :=
        fun r hr2 => hall r (List.mem_filter.1 hr2).1
      rcases (filterExcluded_isOk_iff _).2 hall2 with ⟨out2, hout2⟩
      rw [hout2]
      rw [filterExcluded_ok_eq hout2, List.filter_comm,
        ← filterExcluded_ok_eq he]
  have hu2 : collect_institute_universe
      (dld_all.filter (fun r => (pget r "instituteLegalName").truthy)) =
      .ok insts := by
    rw [collect_filter_truthy]
    exact hc
  have heq2 := normalize_program_eq year hp hdld hu2
  rw [heq2, hr]
  have hemit : emitInstitute pid (pget program "programLongName") year
      (major_trans_url pid) (dashboard_url pid)
      ((dld_all.filter (fun r => (pget r "instituteLegalName").truthy)).filter
        (fun r => pyEqInt (pget r "year") year)) =
      emitInstitute pid (pget program "programLongName") year
      (major_trans_url pid) (dashboard_url pid)
      (dld_all.filter (fun r => pyEqInt (pget r "year") year)) := by
    funext inst
    unfold emitInstitute
    rw [instRows_filter_truthy]
  rw [hemit]

/-- Sample target-year data point carrying metrics but no institute name. -/
def wDpNameless : Dict :=
  [("year", Val.vint 2022), ("schoolProfileId", Val.vint 10),
   ("numberOfGraduates", Val.vint 99)]

/-- Sample detail record containing a nameless target-year point. -/
def wMt9 : DetailRecord := ⟨some [wDpA1, wDpNameless, wDpA2, wDpB]⟩

/-- Witness for C9: dropping the nameless point leaves the output unchanged. -/
theorem c9_nameless_points_ignored_witness :
    normalize_program wProg wMt9 2022 {20} = .ok wRowsC1 ∧
    normalize_program wProg
      ⟨some (wMt9.dldAll.filter
        (fun r => (pget r "instituteLegalName").truthy))⟩ 2022 {20} =
      .ok wRowsC1 :=
  ⟨by decide,
    c9_nameless_points_ignored wProg wMt9 2022 {20} wRowsC1 (by decide)⟩


/-! Behaviour of the retry loop in `get_json`. -/

theorem getJsonGo_attempts_bounds {α : Type} (script : Nat → Outcome α)
    (backoff : ℚ) :
    ∀ (fuel attempt : Nat),
      1 ≤ (getJsonGo script backoff attempt fuel).attempts ∧
      (getJsonGo script backoff attempt fuel).attempts ≤ fuel + 1 := by
  intro fuel
  induction fuel with
  | zero =>
    intro attempt
    cases hsc : script attempt <;> simp [getJsonGo, hsc]
  | succ fuel ih =>
    intro attempt
    cases hsc : script attempt with
    | ok v => simp [getJsonGo, hsc]
    | connErr =>
      have := ih (attempt + 1)
      simp [getJsonGo, hsc, retryable]
      omega
    | badJson => simp [getJsonGo, hsc, retryable]
    | httpErr s =>
      by_cases hr : retryable (Outcome.httpErr s : Outcome α) = true
      · have := ih (attempt + 1)
        simp [getJsonGo, hsc, hr]
        omega
      · simp [getJsonGo, hsc, Bool.of_not_eq_true hr]

theorem getJsonGo_earlier_retryable {α : Type} (script : Nat → Outcome α)
    (backoff : ℚ) :
    ∀ (fuel attempt i : Nat), attempt ≤ i →
      i < attempt + ((getJsonGo script backoff attempt fuel).attempts - 1) →
      retryable (script i) = true := by
  intro fuel
  induction fuel with
  | zero =>
    intro attempt i h1 h2
    cases hsc : script attempt <;> simp [getJsonGo, hsc] at h2 <;> omega
  | succ fuel ih =>
    intro attempt i h1 h2
    cases hsc : script attempt with
    | ok v =>
      simp [getJsonGo, hsc] at h2
      omega
    | connErr =>
      simp only [getJsonGo, hsc, retryable, if_true] at h2
      rcases Nat.eq_or_lt_of_le h1 with rfl | hlt
      · rw [hsc]; rfl
      · exact ih (attempt + 1) i hlt (by
          have hb := (getJsonGo_attempts_bounds script backoff fuel (attempt + 1)).1
          omega)
    | badJson =>
      simp [getJsonGo, hsc, retryable] at h2
      omega
    | httpErr s =>
      by_cases hr : retryable (Outcome.httpErr s : Outcome α) = true
      · simp only [getJsonGo, hsc, hr, if_true] at h2
        rcases Nat.eq_or_lt_of_le h1 with rfl | hlt
        · rw [hsc]; exact hr
        · exact ih (attempt + 1) i hlt (by
            have hb := (getJsonGo_attempts_bounds script backoff fuel (attempt + 1)).1
            omega)
      · simp [getJsonGo, hsc, Bool.of_not_eq_true hr] at h2
        omega

theorem getJsonGo_sleeps {α : Type} (script : Nat → Outcome α) (backoff : ℚ) :
    ∀ (fuel attempt : Nat), 1 ≤ attempt →
      (getJsonGo script backoff attempt fuel).sleeps =
        (List.range ((getJsonGo script backoff attempt fuel).attempts - 1)).map
          (fun i => backoff ^ (attempt - 1 + i)) := by
  intro fuel
  induction fuel with
  | zero =>
    intro attempt hatt
    cases hsc : script attempt <;> simp [getJsonGo, hsc]
  | succ fuel ih =>
    intro attempt hatt
    cases hsc : script attempt with
    | ok v => simp [getJsonGo, hsc]
    | connErr =>
      simp only [getJsonGo, hsc, retryable, if_true]
      rw [ih (attempt + 1) (by omega)]
      have hb := (getJsonGo_attempts_bounds script backoff fuel (attempt + 1)).1
      obtain ⟨k, hk⟩ : ∃ k,
          (getJsonGo script backoff (attempt + 1) fuel).attempts = k + 1 :=
        ⟨(getJsonGo script backoff (attempt + 1) fuel).attempts - 1, by omega⟩
      rw [hk]
      simp only [Nat.add_sub_cancel]
      rw [List.range_succ_eq_map, List.map_cons, List.map_map]
      refine congrArg₂ _ ?_ ?_
      · rw [Nat.add_zero]
      · refine List.map_congr_left ?_
        intro i hi
        simp only [Function.comp_apply]
        congr 1
        omega
    | badJson => simp [getJsonGo, hsc, retryable]
    | httpErr s =>
      by_cases hr : retryable (Outcome.httpErr s : Outcome α) = true
      · simp only [getJsonGo, hsc, hr, if_true]
        rw [ih (attempt + 1) (by omega)]
        have hb := (getJsonGo_attempts_bounds script backoff fuel (attempt + 1)).1
        obtain ⟨k, hk⟩ : ∃ k,
            (getJsonGo script backoff (attempt + 1) fuel).attempts = k + 1 :=
          ⟨(getJsonGo script backoff (attempt + 1) fuel).attempts - 1, by omega⟩
        rw [hk]
        simp only [Nat.add_sub_cancel]
        rw [List.range_succ_eq_map, List.map_cons, List.map_map]
        refine congrArg₂ _ ?_ ?_
        · rw [Nat.add_zero]
        · refine List.map_congr_left ?_
          intro i hi
          simp only [Function.comp_apply]
          congr 1
          omega
      · simp [getJsonGo, hsc, Bool.of_not_eq_true hr]

theorem getJsonGo_result_ok {α : Type} (script : Nat → Outcome α)
    (backoff : ℚ) :
    ∀ (fuel attempt : Nat) (v : α),
      script (attempt + ((getJsonGo script backoff attempt fuel).attempts - 1)) = .ok v →
      (getJsonGo script backoff attempt fuel).result = .ok v := by
  intro fuel
  induction fuel with
  | zero =>
    intro attempt v h
    cases hsc : script attempt <;> simp_all [getJsonGo]
  | succ fuel ih =>
    intro attempt v h
    cases hsc : script attempt with
    | ok w => simp_all [getJsonGo]
    | connErr =>
      simp only [getJsonGo, hsc, retryable, if_true] at h ⊢
      have hb := (getJsonGo_attempts_bounds script backoff fuel (attempt + 1)).1
      have harith : attempt +
          ((getJsonGo script backoff (attempt + 1) fuel).attempts + 1 - 1) =
          (attempt + 1) +
          ((getJsonGo script backoff (attempt + 1) fuel).attempts - 1) := by
        omega
      rw [harith] at h
      exact ih (attempt + 1) v h
    | badJson => simp_all [getJsonGo, retryable]
    | httpErr s =>
      by_cases hr : retryable (Outcome.httpErr s : Outcome α) = true
      · simp only [getJsonGo, hsc, hr, if_true] at h ⊢
        have hb := (getJsonGo_attempts_bounds script backoff fuel (attempt + 1)).1
        have harith : attempt +
            ((getJsonGo script backoff (attempt + 1) fuel).attempts + 1 - 1) =
            (attempt + 1) +
            ((getJsonGo script backoff (attempt + 1) fuel).attempts - 1) := by
          omega
        rw [harith] at h
        exact ih (attempt + 1) v h
      · simp_all [getJsonGo, Bool.of_not_eq_true hr]

theorem getJsonGo_result_err {α : Type} (script : Nat → Outcome α)
    (backoff : ℚ) :
    ∀ (fuel attempt : Nat),
      (script (attempt + ((getJsonGo script backoff attempt fuel).attempts - 1))).isOk = false →
      (getJsonGo script backoff attempt fuel).result =
        .error (script (attempt + ((getJsonGo script backoff attempt fuel).attempts - 1))) ∧
      (retryable (script (attempt + ((getJsonGo script backoff attempt fuel).attempts - 1))) = true →
        (getJsonGo script backoff attempt fuel).attempts = fuel + 1) := by
  intro fuel
  induction fuel with
  | zero =>
    intro attempt h
    cases hsc : script attempt <;> simp_all [getJsonGo, Outcome.isOk]
  | succ fuel ih =>
    intro attempt h
    cases hsc : script attempt with
    | ok w => simp_all [getJsonGo, Outcome.isOk]
    | connErr =>
      simp only [getJsonGo, hsc, retryable, if_true] at h ⊢
      have hb := (getJsonGo_attempts_bounds script backoff fuel (attempt + 1)).1
      have harith : attempt +
          ((getJsonGo script backoff (attempt + 1) fuel).attempts + 1 - 1) =
          (attempt + 1) +
          ((getJsonGo script backoff (attempt + 1) fuel).attempts - 1) := by
        omega
      rw [harith] at h ⊢
      rcases ih (attempt + 1) h with ⟨h1, h2⟩
      exact ⟨h1, fun hcond => by rw [h2 hcond]⟩
    | badJson =>
      simp only [getJsonGo, hsc, retryable, Bool.false_eq_true, if_false] at h ⊢
      simp only [Nat.sub_self, Nat.add_zero] at h ⊢
      rw [hsc] at h ⊢
      exact ⟨rfl, fun hcond => by cases hcond⟩
    | httpErr s =>
      by_cases hr : retryable (Outcome.httpErr s : Outcome α) = true
      · simp only [getJsonGo, hsc, hr, if_true] at h ⊢
        have hb := (getJsonGo_attempts_bounds script backoff fuel (attempt + 1)).1
        have harith : attempt +
            ((getJsonGo script backoff (attempt + 1) fuel).attempts + 1 - 1) =
            (attempt + 1) +
            ((getJsonGo script backoff (attempt + 1) fuel).attempts - 1) := by
          omega
        rw [harith] at h ⊢
        rcases ih (attempt + 1) h with ⟨h1, h2⟩
        exact ⟨h1, fun hcond => by rw [h2 hcond]⟩
      · simp only [getJsonGo, hsc, Bool.of_not_eq_true hr, Bool.false_eq_true,
          if_false] at h ⊢
        simp only [Nat.sub_self, Nat.add_zero] at h ⊢
        rw [hsc] at h ⊢
        refine ⟨rfl, fun hcond => absurd hcond hr⟩

/-- C3: `get_json` makes at most `retries` attempts; every attempt before the
last one failed with a retryable condition (connection failure, timeout,
HTTP 429 or 5xx); the sleeps between attempts are `backoff ^ (attempt - 1)`
seconds in order; a success at the last attempt is returned; a non-retryable
failure (other HTTP statuses, malformed JSON) at the last attempt is raised
with no further attempt; and a retryable failure is raised only once all
`retries` attempts are exhausted, surfacing the last error. -/
theorem c3_retry_policy {α : Type} (script : Nat → Outcome α) (retries : Nat)
    (backoff : ℚ) (hret : 1 ≤ retries) :
    (1 ≤ (get_json script retries backoff).attempts ∧
     (get_json script retries backoff).attempts ≤ retries) ∧
    (∀ i, 1 ≤ i → i < (get_json script retries backoff).attempts →
      retryable (script i) = true) ∧
    (get_json script retries backoff).sleeps =
      (List.range ((get_json script retries backoff).attempts - 1)).map
        (fun i => backoff ^ i) ∧
    (∀ v, script (get_json script retries backoff).attempts = .ok v →
      (get_json script retries backoff).result = .ok v) ∧
    ((script (get_json script retries backoff).attempts).isOk = false →
      (get_json script retries backoff).result =
        .error (script (get_json script retries backoff).attempts) ∧
      (retryable (script (get_json script retries backoff).attempts) = true →
        (get_json script retries backoff).attempts = retries)) := by
  unfold get_json
  have hb := getJsonGo_attempts_bounds script backoff (retries - 1) 1
  have hfin : 1 + ((getJsonGo script backoff 1 (retries - 1)).attempts - 1) =
      (getJsonGo script backoff 1 (retries - 1)).attempts := by omega
  refine ⟨⟨hb.1, by omega⟩, ?_, ?_, ?_, ?_⟩
  · intro i h1 h2
    exact getJsonGo_earlier_retryable script backoff (retries - 1) 1 i h1
      (by omega)
  · have hs := getJsonGo_sleeps script backoff (retries - 1) 1 (le_refl 1)
    simpa using hs
  · intro v hv
    refine getJsonGo_result_ok script backoff (retries - 1) 1 v ?_
    rw [hfin]
    exact hv
  · intro hv
    have h := getJsonGo_result_err script backoff (retries - 1) 1
      (by rw [hfin]; exact hv)
    rw [hfin] at h
    refine ⟨h.1, fun hc => ?_⟩
    rw [h.2 hc]
    omega

/-- Attempt script used by the C3 witness: a connection failure, then an
HTTP 503, then a success. -/
def wScript : Nat → Outcome Nat := fun a =>
  if a = 1 then .connErr
  else if a = 2 then .httpErr (some 503)
  else .ok 42

/-- Witness for C3 at a concrete attempt script with the default retry
parameters. -/
theorem c3_retry_policy_witness :
    (1 ≤ 3 ∧
    ((1 ≤ (get_json wScript 3 (3 / 2)).attempts ∧
     (get_json wScript 3 (3 / 2)).attempts ≤ 3) ∧
    (∀ i, 1 ≤ i → i < (get_json wScript 3 (3 / 2)).attempts →
      retryable (wScript i) = true) ∧
    (get_json wScript 3 (3 / 2)).sleeps =
      (List.range ((get_json wScript 3 (3 / 2)).attempts - 1)).map
        (fun i => (3 / 2 : ℚ) ^ i) ∧
    (∀ v, wScript (get_json wScript 3 (3 / 2)).attempts = .ok v →
      (get_json wScript 3 (3 / 2)).result = .ok v) ∧
    ((wScript (get_json wScript 3 (3 / 2)).attempts).isOk = false →
      (get_json wScript 3 (3 / 2)).result =
        .error (wScript (get_json wScript 3 (3 / 2)).attempts) ∧
      (retryable (wScript (get_json wScript 3 (3 / 2)).attempts) = true →
        (get_json wScript 3 (3 / 2)).attempts = 3)))) :=
  ⟨by decide, c3_retry_policy wScript 3 (3 / 2) (by decide)⟩

/-- C4: with a file present at the id-keyed path and `force` false, the cache
is read with no network access and no write (a corrupt file raises the decode
failure, unrepaired and unrefetched); otherwise the record is fetched over
the network, persisted at that path on success before returning, and a fetch
failure is propagated without writing. -/
theorem c4_load_or_fetch
    (net : Int → Except String DetailRecord) (cache : Cache) (pid : Int)
    (force : Bool) :
    (∀ f, cache pid = some f → force = false →
      (load_or_fetch_majortrans net cache pid force).netCalled = false ∧
      (load_or_fetch_majortrans net cache pid force).cache = cache ∧
      (∀ d, f = some d →
        (load_or_fetch_majortrans net cache pid force).result = .ok d) ∧
      (f = none →
        (load_or_fetch_majortrans net cache pid force).result =
          .error DECODE_ERR)) ∧
    ((cache pid = none ∨ force = true) →
      (load_or_fetch_majortrans net cache pid force).netCalled = true ∧
      (∀ d, net pid = .ok d →
        (load_or_fetch_majortrans net cache pid force).result = .ok d ∧
        (load_or_fetch_majortrans net cache pid force).cache pid =
          some (some d) ∧
        (∀ q, q ≠ pid →
          (load_or_fetch_majortrans net cache pid force).cache q = cache q)) ∧
      (∀ e, net pid = .error e →
        (load_or_fetch_majortrans net cache pid force).result = .error e ∧
        (load_or_fetch_majortrans net cache pid force).cache = cache)) := by
  constructor
  · intro f hf hforce
    subst hforce
    refine ⟨?_, ?_, ?_, ?_⟩
    · simp [load_or_fetch_majortrans, hf]
    · simp [load_or_fetch_majortrans, hf]
    · intro d hd
      subst hd
      simp [load_or_fetch_majortrans, hf]
    · intro hnone
      subst hnone
      simp [load_or_fetch_majortrans, hf]
  · intro hmiss
    have hred : load_or_fetch_majortrans net cache pid force =
        match net pid with
        | .ok mt =>
          { result := .ok mt
            cache := fun q => if q = pid then some (some mt) else cache q
            netCalled := true }
        | .error e => { result := .error e, cache := cache, netCalled := true } := by
      rcases hmiss with hnone | hforce
      · unfold load_or_fetch_majortrans
        rw [hnone]
      · subst hforce
        unfold load_or_fetch_majortrans
        cases hc : cache pid <;> rfl
    refine ⟨?_, ?_, ?_⟩
    · rw [hred]
      cases hnet : net pid <;> simp
    · intro d hd
      rw [hred, hd]
      refine ⟨rfl, ?_, ?_⟩
      · simp
      · intro q hq
        simp [hq]
    · intro e he
      rw [hred, he]
      exact ⟨rfl, rfl⟩

/-- Network model used by the cache witnesses: program 30 resolves to the
sample record, anything else is a 404. -/
def wNet : Int → Except String DetailRecord := fun p =>
  if p = 30 then .ok wMt else .error "HTTPError: 404"

/-- Cache holding only the sample record for program 30. -/
def wCacheHit : Cache := fun p =>
  if p = 30 then some (some wMt) else none

/-- Witness for C4: a cache hit returns the cached record without any
network call, and a miss fetches and persists. -/
theorem c4_load_or_fetch_witness :
    (wCacheHit 30 = some (some wMt) ∧
     (load_or_fetch_majortrans wNet wCacheHit 30 false).netCalled = false ∧
     (load_or_fetch_majortrans wNet wCacheHit 30 false).result = .ok wMt) ∧
    ((load_or_fetch_majortrans wNet (fun _ => none) 30 false).netCalled = true ∧
     (load_or_fetch_majortrans wNet (fun _ => none) 30 false).cache 30 =
       some (some wMt)) :=
  ⟨⟨rfl,
    ((c4_load_or_fetch wNet wCacheHit 30 false).1 (some wMt) rfl rfl).1,
    (((c4_load_or_fetch wNet wCacheHit 30 false).1 (some wMt) rfl rfl).2.2.1
      wMt rfl)⟩,
   ⟨((c4_load_or_fetch wNet (fun _ => none) 30 false).2 (Or.inl rfl)).1,
    ((((c4_load_or_fetch wNet (fun _ => none) 30 false).2 (Or.inl rfl)).2.1
      wMt (by decide)).2.1)⟩⟩

/-! The three states of the exclusion flag. -/

/-- The set of integers parsed from the exclusion-flag tokens. -/
def parsedIdSet (raw : String) : Finset ℤ :=
  ((pyTokens raw).filterMap pyToInt?).toFinset

/-- Python `int` rejects the empty token. -/
theorem pyToInt?_empty : pyToInt? "" = none := by decide

/-- The parsing fold succeeds and collects exactly the parsed integers when
every nonempty token parses. -/
theorem parse_fold_ok :
    ∀ (parts : List String) (acc : Finset ℤ),
      (∀ t ∈ parts, t ≠ "" → (pyToInt? t).isSome = true) →
      parts.foldlM parse_step acc =
        .ok (acc ∪ (parts.filterMap pyToInt?).toFinset) := by
  intro parts
  induction parts with
  | nil =>
    intro acc h
    simp [List.foldlM]
    rfl
  | cons t ts ih =>
    intro acc h
    rw [List.foldlM_cons]
    by_cases ht : t = ""
    · subst ht
      have hstep : parse_step acc "" = .ok acc := rfl
      rw [hstep]
      have hbind : ((Except.ok acc : Except String (Finset ℤ)) >>=
          fun acc2 => ts.foldlM parse_step acc2) =
          ts.foldlM parse_step acc := rfl
      rw [hbind, ih acc (fun q hq hne => h q (List.mem_cons_of_mem _ hq) hne)]
      simp [List.filterMap_cons, pyToInt?_empty]
    · rcases Option.isSome_iff_exists.1
        (h t (List.mem_cons_self _ _) ht) with ⟨n, hn⟩
      have hstep : parse_step acc t = .ok (insert n acc) := by
        simp [parse_step, ht, hn]
      rw [hstep]
      have hbind : ((Except.ok (insert n acc) : Except String (Finset ℤ)) >>=
          fun acc2 => ts.foldlM parse_step acc2) =
          ts.foldlM parse_step (insert n acc) := rfl
      rw [hbind, ih (insert n acc)
        (fun q hq hne => h q (List.mem_cons_of_mem _ hq) hne)]
      simp only [List.filterMap_cons, hn, List.toFinset_cons]
      congr 1
      ext a
      simp

/-- The parsing fold raises when some nonempty token does not parse. -/
theorem parse_fold_err :
    ∀ (parts : List String) (acc : Finset ℤ),
      (∃ t ∈ parts, t ≠ "" ∧ pyToInt? t = none) →
      ∃ e, parts.foldlM parse_step acc = .error e := by
  intro parts
  induction parts with
  | nil =>
    intro acc ⟨t, ht, _⟩
    cases ht
  | cons t ts ih =>
    intro acc ⟨t0, ht0, hne, hnone⟩
    rw [List.foldlM_cons]
    rcases List.mem_cons.1 ht0 with rfl | hmem
    · have hstep : parse_step acc t0 =
          .error ("--exclude-school-ids contains a non-integer: " ++ t0) := by
        simp [parse_step, hne, hnone]
      rw [hstep]
      exact ⟨_, rfl⟩
    · by_cases ht : t = ""
      · subst ht
        have hstep : parse_step acc "" = .ok acc := rfl
        rw [hstep]
        rcases ih acc ⟨t0, hmem, hne, hnone⟩ with ⟨e, he⟩
        refine ⟨e, ?_⟩
        have hbind : ((Except.ok acc : Except String (Finset ℤ)) >>=
            fun acc2 => ts.foldlM parse_step acc2) =
            ts.foldlM parse_step acc := rfl
        rw [hbind, he]
      · cases hpt : pyToInt? t with
        | none =>
          have hstep : parse_step acc t =
              .error ("--exclude-school-ids contains a non-integer: " ++ t) := by
            simp [parse_step, ht, hpt]
          rw [hstep]
          exact ⟨_, rfl⟩
        | some n =>
          have hstep : parse_step acc t = .ok (insert n acc) := by
            simp [parse_step, ht, hpt]
          rw [hstep]
          rcases ih (insert n acc) ⟨t0, hmem, hne, hnone⟩ with ⟨e, he⟩
          refine ⟨e, ?_⟩
          have hbind : ((Except.ok (insert n acc) : Except String (Finset ℤ)) >>=
              fun acc2 => ts.foldlM parse_step acc2) =
              ts.foldlM parse_step (insert n acc) := rfl
          rw [hbind, he]

/-- C5: an omitted exclusion flag resolves to the built-in default set; a
blank string resolves to the empty set, disabling exclusions; a non-blank
string resolves to exactly the set of integers parsed from it, replacing the
defaults; and a non-integer token raises an argument error, aborting the run
before the Majors endpoint or any detail endpoint is called. -/
theorem c5_exclusion_flag :
    resolve_exclusions none = .ok DEFAULT_EXCLUDE_IDS ∧
    (∀ raw : String, pyStrip raw = "" → resolve_exclusions (some raw) = .ok ∅) ∧
    (∀ raw : String, pyStrip raw ≠ "" →
      ((∀ t ∈ pyTokens raw, t ≠ "" → (pyToInt? t).isSome = true) →
        resolve_exclusions (some raw) = .ok (parsedIdSet raw)) ∧
      ((∃ t ∈ pyTokens raw, t ≠ "" ∧ pyToInt? t = none) →
        (∃ e, resolve_exclusions (some raw) = .error e) ∧
        (∀ (mresp : Except String MajorsTop)
          (net : Int → Except String DetailRecord) (c0 : Cache) (args : Args),
          args.excludeRaw = some raw →
          (main_run mresp net c0 args).majorsCalled = false ∧
          (main_run mresp net c0 args).detailCalls = []))) := by
  refine ⟨rfl, ?_, ?_⟩
  · intro raw hraw
    simp [resolve_exclusions, parse_id_list, hraw]
  · intro raw hraw
    constructor
    · intro hall
      have hfold := parse_fold_ok (pyTokens raw) ∅ hall
      simp [resolve_exclusions, parse_id_list, hraw, hfold, parsedIdSet, Except.map]
    · intro hexist
      rcases parse_fold_err (pyTokens raw) ∅ hexist with ⟨e, he⟩
      have hres : resolve_exclusions (some raw) = .error e := by
        simp [resolve_exclusions, parse_id_list, hraw, he, Except.map]
      refine ⟨⟨e, hres⟩, ?_⟩
      intro mresp net c0 args hargs
      unfold main_run
      rw [hargs, hres]
      exact ⟨rfl, rfl⟩

/-- Witness for C5 at concrete flag values. -/
theorem c5_exclusion_flag_witness :
    resolve_exclusions none = .ok DEFAULT_EXCLUDE_IDS ∧
    (pyStrip " " = "" ∧ resolve_exclusions (some " ") = .ok ∅) ∧
    (pyStrip "101, 202" ≠ "" ∧
      resolve_exclusions (some "101, 202") = .ok (parsedIdSet "101, 202")) ∧
    (pyStrip "1,x" ≠ "" ∧
      (∃ e, resolve_exclusions (some "1,x") = .error e) ∧
      (main_run (.ok (.list [])) wNet (fun _ => none)
        ⟨none, none, 2022, some "1,x", false⟩).majorsCalled = false ∧
      (main_run (.ok (.list [])) wNet (fun _ => none)
        ⟨none, none, 2022, some "1,x", false⟩).detailCalls = []) :=
  ⟨c5_exclusion_flag.1,
   ⟨by decide, c5_exclusion_flag.2.1 " " (by decide)⟩,
   ⟨by decide, (c5_exclusion_flag.2.2 "101, 202" (by decide)).1 (by decide)⟩,
   ⟨by decide,
    ((c5_exclusion_flag.2.2 "1,x" (by decide)).2 (by decide)).1,
    (((c5_exclusion_flag.2.2 "1,x" (by decide)).2 (by decide)).2
      (.ok (.list [])) wNet (fun _ => none)
      ⟨none, none, 2022, some "1,x", false⟩ rfl).1,
    (((c5_exclusion_flag.2.2 "1,x" (by decide)).2 (by decide)).2
      (.ok (.list [])) wNet (fun _ => none)
      ⟨none, none, 2022, some "1,x", false⟩ rfl).2⟩⟩

/-- C7: an exception raised while loading, fetching or normalizing one
program is caught inside the per-item boundary: it is logged as the pair of
the program id and the cause, that program contributes zero rows, and the
loop continues over the remaining programs from the post-load cache.  By
contrast a failure of `int(m["programId"])`, which sits outside the `try`
block, aborts the whole run with no rows — the boundary is the only place
where partial failure is tolerated. -/
theorem c7_per_item_failure_boundary
    (net : Int → Except String DetailRecord) (year : Int) (ex : Finset ℤ)
    (force : Bool) (c : Cache) (m : Dict) (ms : List Dict) :
    (∀ pid e, pyInt (pget m "programId") = .ok pid →
      item_try m year ex (load_or_fetch_majortrans net c pid force).result =
        .error e →
      run_loop net year ex force c (m :: ms) =
        ⟨(run_loop net year ex force
            (load_or_fetch_majortrans net c pid force).cache ms).rows,
         (run_loop net year ex force
            (load_or_fetch_majortrans net c pid force).cache ms).cache,
         (if (load_or_fetch_majortrans net c pid force).netCalled then [pid]
          else []) ++
           (run_loop net year ex force
             (load_or_fetch_majortrans net c pid force).cache ms).netCalls,
         (pid, e) :: (run_loop net year ex force
            (load_or_fetch_majortrans net c pid force).cache ms).logs,
         (run_loop net year ex force
            (load_or_fetch_majortrans net c pid force).cache ms).abort⟩) ∧
    (∀ e, pyInt (pget m "programId") = .error e →
      run_loop net year ex force c (m :: ms) = ⟨[], c, [], [], some e⟩) := by
  constructor
  · intro pid e hpid htry
    simp only [run_loop, hpid, htry]
  · intro e hpid
    simp only [run_loop, hpid]

/-- Majors entry whose detail fetch fails in the witness network model. -/
def wFailingM : Dict := [("programId", Val.vint 7)]

/-- Witness for C7: program 7 fails to fetch, is logged with its id and
cause, contributes no rows, and the (empty) remainder still runs. -/
theorem c7_per_item_failure_boundary_witness :
    (pyInt (pget wFailingM "programId") = .ok 7 ∧
     item_try wFailingM 2022 ∅
       (load_or_fetch_majortrans wNet (fun _ => none) 7 false).result =
       .error "HTTPError: 404") ∧
    run_loop wNet 2022 ∅ false (fun _ => none) [wFailingM] =
      ⟨(run_loop wNet 2022 ∅ false
          (load_or_fetch_majortrans wNet (fun _ => none) 7 false).cache []).rows,
       (run_loop wNet 2022 ∅ false
          (load_or_fetch_majortrans wNet (fun _ => none) 7 false).cache []).cache,
       (if (load_or_fetch_majortrans wNet (fun _ => none) 7 false).netCalled
        then [7] else []) ++
         (run_loop wNet 2022 ∅ false
           (load_or_fetch_majortrans wNet (fun _ => none) 7 false).cache []).netCalls,
       (7, "HTTPError: 404") :: (run_loop wNet 2022 ∅ false
          (load_or_fetch_majortrans wNet (fun _ => none) 7 false).cache []).logs,
       (run_loop wNet 2022 ∅ false
          (load_or_fetch_majortrans wNet (fun _ => none) 7 false).cache []).abort⟩ :=
  ⟨⟨by decide, by decide⟩,
   (c7_per_item_failure_boundary wNet 2022 ∅ false (fun _ => none) wFailingM
     []).1 7 "HTTPError: 404" (by decide) (by decide)⟩

/-- C8: when the Majors endpoint returns a payload that is not a list, the
run raises the shape error before fetching any detail record, and the
uncaught exception exits the process with nonzero status (modelled by the
`Except.error` exit). -/
theorem c8_nonlist_majors_aborts
    (net : Int → Except String DetailRecord) (c0 : Cache) (args : Args)
    (ex : Finset ℤ)
    (hres : resolve_exclusions args.excludeRaw = .ok ex) :
    (main_run (.ok .notList) net c0 args).exit =
      .error "Majors payload is not a list." ∧
    (main_run (.ok .notList) net c0 args).detailCalls = [] ∧
    (main_run (.ok .notList) net c0 args).majorsCalled = true := by
  unfold main_run
  rw [hres]
  exact ⟨rfl, rfl, rfl⟩

/-- Witness for C8 with the default flags. -/
theorem c8_nonlist_majors_aborts_witness :
    resolve_exclusions (Args.mk none none 2022 none false).excludeRaw =
      .ok DEFAULT_EXCLUDE_IDS ∧
    ((main_run (.ok .notList) wNet (fun _ => none)
        (Args.mk none none 2022 none false)).exit =
      .error "Majors payload is not a list." ∧
     (main_run (.ok .notList) wNet (fun _ => none)
        (Args.mk none none 2022 none false)).detailCalls = [] ∧
     (main_run (.ok .notList) wNet (fun _ => none)
        (Args.mk none none 2022 none false)).majorsCalled = true) :=
  ⟨by decide,
   c8_nonlist_majors_aborts wNet (fun _ => none)
     (Args.mk none none 2022 none false) DEFAULT_EXCLUDE_IDS (by decide)⟩

/-! Cache evolution of the main loop under `force = false`. -/

/-- Outcome of `json.load` on an existing cache file. -/
def parseFile : Option DetailRecord → Except String DetailRecord
  | some d => .ok d
  | none => .error DECODE_ERR

/-- Reduction of `load_or_fetch_majortrans` on a cache hit without force. -/
theorem load_hit (net : Int → Except String DetailRecord) {c : Cache}
    {pid : Int} {f : Option DetailRecord} (h : c pid = some f) :
    load_or_fetch_majortrans net c pid false = ⟨parseFile f, c, false⟩ := by
  unfold load_or_fetch_majortrans
  rw [h]
  cases f <;> rfl

/-- Reduction of `load_or_fetch_majortrans` on a miss with a successful
fetch: the response is persisted at the id-keyed path. -/
theorem load_miss_ok {net : Int → Except String DetailRecord} {c : Cache}
    {pid : Int} {d : DetailRecord} (h1 : c pid = none)
    (h2 : net pid = .ok d) :
    load_or_fetch_majortrans net c pid false =
      ⟨.ok d, fun q => if q = pid then some (some d) else c q, true⟩ := by
  unfold load_or_fetch_majortrans
  rw [h1, h2]

/-- Reduction of `load_or_fetch_majortrans` on a miss with a failed fetch:
nothing is written. -/
theorem load_miss_err {net : Int → Except String DetailRecord} {c : Cache}
    {pid : Int} {e : String} (h1 : c pid = none) (h2 : net pid = .error e) :
    load_or_fetch_majortrans net c pid false =
      ⟨.error e, c, true⟩ := by
  unfold load_or_fetch_majortrans
  rw [h1, h2]

/-- One unrolling of the main loop on a program whose id converts. -/
theorem run_loop_cons (net : Int → Except String DetailRecord) (year : Int)
    (ex : Finset ℤ) (force : Bool) (c : Cache) (ms : List Dict) {m : Dict}
    {pid : Int} (hpid : pyInt (pget m "programId") = .ok pid) :
    run_loop net year ex force c (m :: ms) =
      (match item_try m year ex
          (load_or_fetch_majortrans net c pid force).result with
       | .ok rows =>
         ⟨rows ++ (run_loop net year ex force
             (load_or_fetch_majortrans net c pid force).cache ms).rows,
          (run_loop net year ex force
             (load_or_fetch_majortrans net c pid force).cache ms).cache,
          (if (load_or_fetch_majortrans net c pid force).netCalled then [pid]
           else []) ++ (run_loop net year ex force
             (load_or_fetch_majortrans net c pid force).cache ms).netCalls,
          (run_loop net year ex force
             (load_or_fetch_majortrans net c pid force).cache ms).logs,
          (run_loop net year ex force
             (load_or_fetch_majortrans net c pid force).cache ms).abort⟩
       | .error e =>
         ⟨(run_loop net year ex force
             (load_or_fetch_majortrans net c pid force).cache ms).rows,
          (run_loop net year ex force
             (load_or_fetch_majortrans net c pid force).cache ms).cache,
          (if (load_or_fetch_majortrans net c pid force).netCalled then [pid]
           else []) ++ (run_loop net year ex force
             (load_or_fetch_majortrans net c pid force).cache ms).netCalls,
          (pid, e) :: (run_loop net year ex force
             (load_or_fetch_majortrans net c pid force).cache ms).logs,
          (run_loop net year ex force
             (load_or_fetch_majortrans net c pid force).cache ms).abort⟩) := by
  simp only [run_loop, hpid]

/-- Without force, loading never removes or changes an existing cache
file. -/
theorem load_cache_mono (net : Int → Except String DetailRecord) (pid : Int)
    {c : Cache} {p : Int} {f : Option DetailRecord} (h : c p = some f) :
    (load_or_fetch_majortrans net c pid false).cache p = some f := by
  cases hc : c pid with
  | some file =>
    rw [load_hit net hc]
    exact h
  | none =>
    cases hnet : net pid with
    | ok d =>
      rw [load_miss_ok hc hnet]
      by_cases hpq : p = pid
      · subst hpq
        rw [h] at hc
        cases hc
      · simp [hpq]
        exact h
    | error e =>
      rw [load_miss_err hc hnet]
      exact h

/-- Without force, the main loop never removes or changes an existing cache
file. -/
theorem run_loop_cache_mono {net : Int → Except String DetailRecord}
    {year : Int} {ex : Finset ℤ} :
    ∀ (sel : List Dict) (c : Cache) (p : Int) (f : Option DetailRecord),
      c p = some f → (run_loop net year ex false c sel).cache p = some f := by
  intro sel
  induction sel with
  | nil =>
    intro c p f h
    exact h
  | cons m ms ih =>
    intro c p f h
    cases hpid : pyInt (pget m "programId") with
    | error e =>
      simp only [run_loop, hpid]
      exact h
    | ok pid =>
      rw [run_loop_cons net year ex false c ms hpid]
      have hload := load_cache_mono net pid h
      cases htry : item_try m year ex
          (load_or_fetch_majortrans net c pid false).result with
      | ok rows => exact ih _ p f hload
      | error e => exact ih _ p f hload

/-- Without force, a cache file present after a load was either present
before or is the just-fetched network response. -/
theorem load_cache_write (net : Int → Except String DetailRecord) (pid : Int)
    {c : Cache} {p : Int} {f : Option DetailRecord}
    (h : (load_or_fetch_majortrans net c pid false).cache p = some f) :
    c p = some f ∨ ∃ d, net p = .ok d ∧ f = some d := by
  cases hc : c pid with
  | some file =>
    rw [load_hit net hc] at h
    exact Or.inl h
  | none =>
    cases hnet : net pid with
    | ok d =>
      rw [load_miss_ok hc hnet] at h
      by_cases hpq : p = pid
      · subst hpq
        simp at h
        exact Or.inr ⟨d, hnet, h.symm⟩
      · simp [hpq] at h
        exact Or.inl h
    | error e =>
      rw [load_miss_err hc hnet] at h
      exact Or.inl h

/-- Without force, a cache file present after the main loop was either
present before or holds a successfully fetched network response. -/
theorem run_loop_cache_write {net : Int → Except String DetailRecord}
    {year : Int} {ex : Finset ℤ} :
    ∀ (sel : List Dict) (c : Cache) (p : Int) (f : Option DetailRecord),
      (run_loop net year ex false c sel).cache p = some f →
      c p = some f ∨ ∃ d, net p = .ok d ∧ f = some d := by
  intro sel
  induction sel with
  | nil =>
    intro c p f h
    exact Or.inl h
  | cons m ms ih =>
    intro c p f h
    cases hpid : pyInt (pget m "programId") with
    | error e =>
      simp only [run_loop, hpid] at h
      exact Or.inl h
    | ok pid =>
      rw [run_loop_cons net year ex false c ms hpid] at h
      cases htry : item_try m year ex
          (load_or_fetch_majortrans net c pid false).result with
      | ok rows =>
        rw [htry] at h
        simp only at h
        rcases ih _ p f h with hrec | hrec
        · exact load_cache_write net pid hrec
        · exact Or.inr hrec
      | error e =>
        rw [htry] at h
        simp only at h
        rcases ih _ p f h with hrec | hrec
        · exact load_cache_write net pid hrec
        · exact Or.inr hrec

/-- Result component of `load_hit`. -/
theorem load_hit_result (net : Int → Except String DetailRecord) {c : Cache}
    {pid : Int} {f : Option DetailRecord} (h : c pid = some f) :
    (load_or_fetch_majortrans net c pid false).result = parseFile f := by
  rw [load_hit net h]

/-- Cache component of `load_hit`. -/
theorem load_hit_cache (net : Int → Except String DetailRecord) {c : Cache}
    {pid : Int} {f : Option DetailRecord} (h : c pid = some f) :
    (load_or_fetch_majortrans net c pid false).cache = c := by
  rw [load_hit net h]

/-- Network component of `load_hit`. -/
theorem load_hit_netCalled (net : Int → Except String DetailRecord)
    {c : Cache} {pid : Int} {f : Option DetailRecord} (h : c pid = some f) :
    (load_or_fetch_majortrans net c pid false).netCalled = false := by
  rw [load_hit net h]

/-- Result component of `load_miss_err`. -/
theorem load_miss_err_result {net : Int → Except String DetailRecord}
    {c : Cache} {pid : Int} {e : String} (h1 : c pid = none)
    (h2 : net pid = .error e) :
    (load_or_fetch_majortrans net c pid false).result = .error e := by
  rw [load_miss_err h1 h2]

/-- Cache component of `load_miss_err`. -/
theorem load_miss_err_cache {net : Int → Except String DetailRecord}
    {c : Cache} {pid : Int} {e : String} (h1 : c pid = none)
    (h2 : net pid = .error e) :
    (load_or_fetch_majortrans net c pid false).cache = c := by
  rw [load_miss_err h1 h2]

/-- Network component of `load_miss_err`. -/
theorem load_miss_err_netCalled {net : Int → Except String DetailRecord}
    {c : Cache} {pid : Int} {e : String} (h1 : c pid = none)
    (h2 : net pid = .error e) :
    (load_or_fetch_majortrans net c pid false).netCalled = true := by
  rw [load_miss_err h1 h2]

/-- Result component of `load_miss_ok`. -/
theorem load_miss_ok_result {net : Int → Except String DetailRecord}
    {c : Cache} {pid : Int} {d : DetailRecord} (h1 : c pid = none)
    (h2 : net pid = .ok d) :
    (load_or_fetch_majortrans net c pid false).result = .ok d := by
  rw [load_miss_ok h1 h2]

/-- Cache component of `load_miss_ok`. -/
theorem load_miss_ok_cache {net : Int → Except String DetailRecord}
    {c : Cache} {pid : Int} {d : DetailRecord} (h1 : c pid = none)
    (h2 : net pid = .ok d) :
    (load_or_fetch_majortrans net c pid false).cache =
      fun q => if q = pid then some (some d) else c q := by
  rw [load_miss_ok h1 h2]

/-- Network component of `load_miss_ok`. -/
theorem load_miss_ok_netCalled {net : Int → Except String DetailRecord}
    {c : Cache} {pid : Int} {d : DetailRecord} (h1 : c pid = none)
    (h2 : net pid = .ok d) :
    (load_or_fetch_majortrans net c pid false).netCalled = true := by
  rw [load_miss_ok h1 h2]

/-- Replay lemma: rerunning the loop from the final cache of a completed
first run changes nothing — same rows and logs, no abort, no cache writes —
and fetches over the network only ids absent from that cache. -/
theorem run_loop_replay {net : Int → Except String DetailRecord}
    {year : Int} {ex : Finset ℤ} :
    ∀ (sel : List Dict) (c C : Cache),
      (run_loop net year ex false c sel).abort = none →
      (∀ p, C p = (run_loop net year ex false c sel).cache p) →
      (run_loop net year ex false C sel).rows =
        (run_loop net year ex false c sel).rows ∧
      (run_loop net year ex false C sel).logs =
        (run_loop net year ex false c sel).logs ∧
      (run_loop net year ex false C sel).abort = none ∧
      (∀ p, (run_loop net year ex false C sel).cache p = C p) ∧
      (∀ q, q ∈ (run_loop net year ex false C sel).netCalls →
        C q = none) := by
  intro sel
  induction sel with
  | nil =>
    intro c C habort hC
    exact ⟨rfl, rfl, rfl, fun p => rfl,
      fun q hq => absurd hq (List.not_mem_nil q)⟩
  | cons m ms ih =>
    intro c C habort hC
    cases hpid : pyInt (pget m "programId") with
    | error e =>
      simp only [run_loop, hpid] at habort
      exact Option.noConfusion habort
    | ok pid =>
      rw [run_loop_cons net year ex false c ms hpid] at habort hC
      rw [run_loop_cons net year ex false c ms hpid,
        run_loop_cons net year ex false C ms hpid]
      cases hcp : c pid with
      | some f =>
        rw [load_hit_result net hcp, load_hit_cache net hcp,
          load_hit_netCalled net hcp] at habort hC ⊢
        have hCpid : C pid = some f := by
          have h0 := hC pid
          cases htry : item_try m year ex (parseFile f) with
          | ok rows =>
            rw [htry] at h0
            exact h0.trans (run_loop_cache_mono ms c pid f hcp)
          | error e =>
            rw [htry] at h0
            exact h0.trans (run_loop_cache_mono ms c pid f hcp)
        rw [load_hit_result net hCpid, load_hit_cache net hCpid,
          load_hit_netCalled net hCpid]
        cases htry : item_try m year ex (parseFile f) with
        | ok rows =>
          rw [htry] at habort hC
          have hrec := ih c C habort hC
          refine ⟨congrArg (fun l => rows ++ l) hrec.1, hrec.2.1,
            hrec.2.2.1, hrec.2.2.2.1, ?_⟩
          intro q hq
          exact hrec.2.2.2.2 q hq
        | error e =>
          rw [htry] at habort hC
          have hrec := ih c C habort hC
          refine ⟨hrec.1, congrArg (fun l => (pid, e) :: l) hrec.2.1,
            hrec.2.2.1, hrec.2.2.2.1, ?_⟩
          intro q hq
          exact hrec.2.2.2.2 q hq
      | none =>
        cases hnet : net pid with
        | ok d =>
          rw [load_miss_ok_result hcp hnet, load_miss_ok_cache hcp hnet,
            load_miss_ok_netCalled hcp hnet] at habort hC ⊢
          have hCpid : C pid = some (some d) := by
            have h0 := hC pid
            have hupd : (fun q => if q = pid then some (some d) else c q) pid
                = some (some d) := by simp
            cases htry : item_try m year ex
                (Except.ok d : Except String DetailRecord) with
            | ok rows =>
              rw [htry] at h0
              exact h0.trans (run_loop_cache_mono ms _ pid (some d) hupd)
            | error e =>
              rw [htry] at h0
              exact h0.trans (run_loop_cache_mono ms _ pid (some d) hupd)
          rw [load_hit_result net hCpid, load_hit_cache net hCpid,
            load_hit_netCalled net hCpid]
          have hparse : parseFile (some d) = .ok d := rfl
          rw [hparse]
          cases htry : item_try m year ex
              (Except.ok d : Except String DetailRecord) with
          | ok rows =>
            rw [htry] at habort hC
            have hrec := ih _ C habort hC
            refine ⟨congrArg (fun l => rows ++ l) hrec.1, hrec.2.1,
              hrec.2.2.1, hrec.2.2.2.1, ?_⟩
            intro q hq
            exact hrec.2.2.2.2 q hq
          | error e =>
            rw [htry] at habort hC
            have hrec := ih _ C habort hC
            refine ⟨hrec.1, congrArg (fun l => (pid, e) :: l) hrec.2.1,
              hrec.2.2.1, hrec.2.2.2.1, ?_⟩
            intro q hq
            exact hrec.2.2.2.2 q hq
        | error e =>
          rw [load_miss_err_result hcp hnet, load_miss_err_cache hcp hnet,
            load_miss_err_netCalled hcp hnet] at habort hC ⊢
          have htry : item_try m year ex
              (Except.error e : Except String DetailRecord) = .error e := rfl
          rw [htry] at habort hC ⊢
          have hCpid : C pid = none := by
            cases hCp : C pid with
            | none => rfl
            | some f =>
              exfalso
              have h0 := hC pid
              rw [hCp] at h0
              rcases run_loop_cache_write ms c pid f h0.symm with hw | ⟨d, hw, _⟩
              · rw [hcp] at hw
                exact Option.noConfusion hw
              · rw [hnet] at hw
                exact Except.noConfusion hw
          rw [load_miss_err_result hCpid hnet, load_miss_err_cache hCpid hnet,
            load_miss_err_netCalled hCpid hnet, htry]
          have hrec := ih c C habort hC
          refine ⟨hrec.1, congrArg (fun l => (pid, e) :: l) hrec.2.1,
            hrec.2.2.1, hrec.2.2.2.1, ?_⟩
          intro q hq
          rcases List.mem_cons.1 hq with rfl | hq2
          · exact hCpid
          · exact hrec.2.2.2.2 q hq2

/-- C6: running the pipeline twice with the same inputs and `force` off
yields identical output rows, and the second run fetches no program id that
the first run left cached. -/
theorem c6_idempotent_rerun
    (mresp : Except String MajorsTop) (net : Int → Except String DetailRecord)
    (c0 : Cache) (args : Args) (rows1 : List Dict)
    (hforce : args.force = false)
    (h1 : (main_run mresp net c0 args).exit = .ok rows1) :
    (main_run mresp net (main_run mresp net c0 args).cache args).exit =
      .ok rows1 ∧
    (∀ pid, ((main_run mresp net c0 args).cache pid).isSome = true →
      pid ∉ (main_run mresp net
        (main_run mresp net c0 args).cache args).detailCalls) := by
  cases hres : resolve_exclusions args.excludeRaw with
  | error e => simp [main_run, hres] at h1
  | ok ex =>
    cases mresp with
    | error e => simp [main_run, hres] at h1
    | ok top =>
      cases top with
      | notList => simp [main_run, hres] at h1
      | list ms =>
        cases hsel : select_majors args.startId args.endId ms with
        | error e => simp [main_run, hres, hsel] at h1
        | ok sel =>
          simp only [main_run, hres, hsel, hforce] at h1 ⊢
          cases habort : (run_loop net args.year ex false c0
              (sort_majors sel)).abort with
          | some e => simp [habort] at h1
          | none =>
            simp only [habort] at h1 ⊢
            have hrep := run_loop_replay (sort_majors sel) c0
              (run_loop net args.year ex false c0 (sort_majors sel)).cache
              habort (fun p => rfl)
            rcases hrep with ⟨hrows2, hlogs2, habort2, hcache2, hcalls2⟩
            simp only [habort2]
            constructor
            · rw [hrows2]
              exact h1
            · intro pid hp hmem
              have hnone := hcalls2 pid hmem
              rw [hnone] at hp
              simp at hp

/-- Arguments used by the C6 witness: full id range, year 2022, exclusion
list "20", no force. -/
def wArgs : Args := ⟨none, none, 2022, some "20", false⟩

/-- Majors payload used by the C6 witness. -/
def wMresp : Except String MajorsTop := .ok (.list [.dict wProg])

/-- Witness for C6: a cached rerun of a concrete one-program pipeline. -/
theorem c6_idempotent_rerun_witness :
    (wArgs.force = false ∧
     (main_run wMresp wNet (fun _ => none) wArgs).exit = .ok wRowsC1) ∧
    ((main_run wMresp wNet
        (main_run wMresp wNet (fun _ => none) wArgs).cache wArgs).exit =
      .ok wRowsC1 ∧
    (∀ pid, ((main_run wMresp wNet (fun _ => none) wArgs).cache pid).isSome =
        true →
      pid ∉ (main_run wMresp wNet
        (main_run wMresp wNet (fun _ => none) wArgs).cache
        wArgs).detailCalls)) :=
  ⟨⟨rfl, by decide⟩,
   c6_idempotent_rerun wMresp wNet (fun _ => none) wArgs wRowsC1 rfl
     (by decide)⟩
